import Mathlib

/-!
Verification development for the accountbot decision engine (`src/engine.py`).

The Python engine is shallowly embedded: the Google-Sheets tables are lists of
typed rows (one structure per sheet, with the column layout the engine writes),
the in-memory registries (`correction_state.states`, `ORDER_STATES`) are
insertion-ordered association lists mirroring Python dict semantics, floats are
rationals (`ℚ`), `time.time()` is an explicit `now : ℚ` parameter, and
`secrets.token_hex` is an explicit supply of fresh id strings.  Functions that
mutate global state are threaded explicitly: they take the state and return the
updated state alongside the Python return value.
-/

namespace AccountBot

/-- Python `str.strip()` (whitespace trim), on the character list so that it
reduces inside the kernel. -/
def pyStrip (s : String) : String :=
  String.mk (((s.toList.dropWhile Char.isWhitespace).reverse.dropWhile
    Char.isWhitespace).reverse)

/-- Python `str.lower()` for the ASCII command vocabulary used by the engine. -/
def pyLower (s : String) : String := String.mk (s.toList.map Char.toLower)

/-- Python `str.upper()`. -/
def pyUpper (s : String) : String := String.mk (s.toList.map Char.toUpper)

/-- Python `s.startswith(p)`. -/
def pyStartsWith (s p : String) : Bool := p.toList.isPrefixOf s.toList

/-- Python `s.endswith(p)`. -/
def pyEndsWith (s p : String) : Bool :=
  p.toList.reverse.isPrefixOf s.toList.reverse

/-- Slicing `s[:n]`. -/
def pyTake (s : String) (n : Nat) : String := String.mk (s.toList.take n)

/-- Slicing `s[n:]`. -/
def pyDrop (s : String) (n : Nat) : String := String.mk (s.toList.drop n)

/-- Slicing `s[:-n]`. -/
def pyDropRight (s : String) (n : Nat) : String :=
  String.mk (s.toList.take (s.toList.length - n))

/-- Split a character list at every character satisfying the predicate
(pieces may be empty, as in Python `str.split(sep)`). -/
def splitOnPred (p : Char → Bool) : List Char → List (List Char)
  | [] => [[]]
  | c :: t =>
    let r := splitOnPred p t
    if p c then [] :: r
    else match r with
      | h :: t2 => (c :: h) :: t2
      | [] => [[c]]

/-- Python `s.split(sep)` for a one-character separator. -/
def pySplitOn (s : String) (sep : Char) : List String :=
  (splitOnPred (fun c => c == sep) s.toList).map String.mk

/-- Python `s.split()`: split on whitespace runs, no empty parts. -/
def pySplitWs (s : String) : List String :=
  ((splitOnPred Char.isWhitespace s.toList).map String.mk).filter
    (fun w => w != "")

/-- Digit run to a natural number (used by the numeral parsers). -/
def digitsVal (cs : List Char) : Nat :=
  cs.foldl (fun acc c => 10 * acc + (c.toNat - 48)) 0

/-- Python `sep.join(l)`. -/
def pyIntercalate (sep : String) : List String → String
  | [] => ""
  | [x] => x
  | x :: xs => x ++ sep ++ pyIntercalate sep xs

/-- Python string `<` (lexicographic on code points). -/
def lexLt : List Char → List Char → Bool
  | [], [] => false
  | [], _ :: _ => true
  | _ :: _, [] => false
  | a :: as, b :: bs =>
    if a < b then true else if b < a then false else lexLt as bs

/-- Python dict lookup `d.get(k)` on an insertion-ordered association list. -/
def dictGet {α : Type} (d : List (String × α)) (k : String) : Option α :=
  (d.find? (fun p => p.1 == k)).map (·.2)

/-- Python dict assignment `d[k] = v`: replace in place if the key exists,
otherwise append at the end (dicts preserve insertion order). -/
def dictInsert {α : Type} (d : List (String × α)) (k : String) (v : α) :
    List (String × α) :=
  if (d.find? (fun p => p.1 == k)).isSome then
    d.map (fun p => if p.1 == k then (k, v) else p)
  else d ++ [(k, v)]

/-- Python `del d[k]` / conditional removal. -/
def dictRemove {α : Type} (d : List (String × α)) (k : String) :
    List (String × α) :=
  d.filter (fun p => p.1 != k)

/-- `format_cedi` (engine.py:56).  The thousands-separator and two-decimal
formatting of the Python f-string is abstracted to `toString`; no theorem
depends on digit formatting, only on which message is produced. -/
def format_cedi (a : ℚ) : String :=
  if a < 0 then "-₵" ++ toString (-a) else "₵" ++ toString a

/-! ## Price Knowledge Base (engine.py:286-499)

A `PriceRow` is one data row of the `PriceRanges` sheet, with the column
layout written by `train_price`:
`Item, Type, Min_Price, Max_Price, Unit, Confidence, Trained_By, Last_Trained, Notes`. -/

structure PriceRow where
  item : String
  kind : String
  minP : ℚ
  maxP : ℚ
  unit : String
  confidence : Int
  trainedBy : String
  lastTrained : String
  notes : String
deriving Repr, DecidableEq

/-- The row-matching test used by `train_price`/`forget_price`/`check_price`:
`row[0].strip().lower() == item_name.strip().lower()`. -/
def keyMatches (rowItem queryItem : String) : Bool :=
  pyLower (pyStrip rowItem) == pyLower (pyStrip queryItem)

/-- The row scan of `train_price` (engine.py:296-301 with 320-328): replace
the first case-insensitively matching row with the fresh training data, or
report that none matched. -/
def trainUpsert (trained : PriceRow) (item_name : String) :
    List PriceRow → Option (List PriceRow)
  | [] => none
  | r :: rest =>
    if keyMatches r.item item_name then some (trained :: rest)
    else (trainUpsert trained item_name rest).map (r :: ·)

/-- The training-data row `train_price` writes (engine.py:308-318). -/
def mkTrained (item_name : String) (min_price max_price : ℚ)
    (unit user_name todayStr : String) : PriceRow :=
  { item := pyStrip item_name
    kind := if pyStartsWith item_name "#" then "category" else "item"
    minP := min_price
    maxP := max_price
    unit := pyStrip unit
    confidence := 85
    trainedBy := user_name
    lastTrained := todayStr
    notes := "Trained by " ++ user_name }

/-- `train_price` (engine.py:286): case-insensitive upsert into the
`PriceRanges` sheet.  Updates the first matching row in place, otherwise
appends; writes confidence 85 and the training metadata.  Returns the user
reply and the updated sheet.  (`ensure_price_ranges_sheet` and the gspread
round-trips always succeed in this failure-free embedding.) -/
def train_price (rows : List PriceRow) (item_name : String)
    (min_price max_price : ℚ) (unit : String) (user_name : String)
    (todayStr : String) : String × List PriceRow :=
  let trained : PriceRow :=
    mkTrained item_name min_price max_price unit user_name todayStr
  let msgOf (action : String) : String :=
    "✅ " ++ action ++ " price range for " ++ item_name ++ ": " ++
      format_cedi min_price ++ " - " ++ format_cedi max_price ++
      (if unit != "" then " " ++ unit else "")
  match trainUpsert trained item_name rows with
  | some rows2 => (msgOf "Updated", rows2)
  | none => (msgOf "Added", rows ++ [trained])

/-- `forget_price` (engine.py:336): delete every case-insensitively matching
row; report not-found when none matches. -/
def forget_price (rows : List PriceRow) (item_name : String) :
    String × List PriceRow :=
  let remaining := rows.filter (fun r => !(keyMatches r.item item_name))
  if remaining.length == rows.length then
    ("❌ No price training found for " ++ item_name, rows)
  else
    ("✅ Forgot price training for " ++ item_name, remaining)

inductive PriceStatus where
  | below
  | above
  | within
deriving Repr, DecidableEq

/-- The dict returned by `check_price`: status, the best matching range, and
`difference` (absent for `within` in Python; every consumer reads it with
`.get('difference', 0)`, so it is modelled as `0` there). -/
structure PriceCheck where
  status : PriceStatus
  range : PriceRow
  difference : ℚ
deriving Repr, DecidableEq

/-- One comparison step of Python `max(matches, key=confidence)`: a later
element replaces the current best only when strictly more confident. -/
def pickBest (b x : PriceRow) : PriceRow :=
  if x.confidence > b.confidence then x else b

/-- Python `max(matches, key=lambda x: x['confidence'])`: the first element of
maximal confidence. -/
def bestMatch (ms : List PriceRow) : Option PriceRow :=
  match ms with
  | [] => none
  | m :: rest => some (rest.foldl pickBest m)

/-- `check_price` (engine.py:363): pure anomaly classification.  Collects the
case-insensitive matches, picks the highest-confidence one, and classifies the
amount against its `[min, max]` range. -/
def check_price (rows : List PriceRow) (item_name : String) (amount : ℚ) :
    Option PriceCheck :=
  match bestMatch (rows.filter (fun r => keyMatches r.item item_name)) with
  | none => none
  | some best =>
    if amount < best.minP then
      some ⟨.below, best, best.minP - amount⟩
    else if amount > best.maxP then
      some ⟨.above, best, amount - best.maxP⟩
    else
      some ⟨.within, best, 0⟩

/-! ## Correction Dialog Engine (engine.py:77-201)

`correction_state.states` is a single Python dict holding two shapes of
value: per-item correction requests (keyed by the generated
`"{user}_{int(time)}"` state id) and per-transaction session entries (keyed by
the transaction id, holding the list of state ids).  Both are modelled by one
inductive value type over an insertion-ordered association list. -/

structure ItemCorr where
  user_id : String
  transaction_id : String
  item : String
  amount : ℚ
  min_price : ℚ
  max_price : ℚ
  sheet_name : String
  rowType : String
  rowDesc : String
  rowCat : String
  rowUser : String
  timestamp : ℚ
  expires_at : ℚ
deriving Repr, DecidableEq

structure TransCorr where
  state_ids : List String
  user_id : String
  timestamp : ℚ
  expires_at : ℚ
deriving Repr, DecidableEq

inductive CorrEntry where
  | item : ItemCorr → CorrEntry
  | trans : TransCorr → CorrEntry
deriving Repr, DecidableEq

def CorrEntry.expiresAt : CorrEntry → ℚ
  | .item c => c.expires_at
  | .trans t => t.expires_at

/-- The states dict of the global `CorrectionState` instance. -/
abbrev CorrStates := List (String × CorrEntry)

/-- `CorrectionState.cleanup` (engine.py:112): drop entries whose expiry has
strictly passed (`current_time > expires_at`). -/
def corrCleanup (states : CorrStates) (now : ℚ) : CorrStates :=
  states.filter (fun p => !(now > p.2.expiresAt))

/-- `CorrectionState.add_correction` (engine.py:84): store one pending item
correction with a 300-second TTL under the key `user_id ++ "_" ++ int(now)`,
then run the lazy cleanup.  Returns the state id and the updated dict. -/
def add_correction (states : CorrStates) (user_id transaction_id item : String)
    (amount min_price max_price : ℚ) (sheet_name : String)
    (rowType rowDesc rowCat rowUser : String) (now : ℚ) :
    String × CorrStates :=
  let state_id := user_id ++ "_" ++ toString (Rat.floor now)
  let entry := CorrEntry.item
    { user_id := user_id, transaction_id := transaction_id, item := item
      amount := amount, min_price := min_price, max_price := max_price
      sheet_name := sheet_name
      rowType := rowType, rowDesc := rowDesc, rowCat := rowCat
      rowUser := rowUser
      timestamp := now, expires_at := now + 300 }
  (state_id, corrCleanup (dictInsert states state_id entry) now)

/-- `CorrectionState.get_correction` (engine.py:103): return the entry while
`now < expires_at`; a stale entry is deleted on access and `None` returned. -/
def get_correction (states : CorrStates) (state_id : String) (now : ℚ) :
    Option CorrEntry × CorrStates :=
  match dictGet states state_id with
  | none => (none, states)
  | some st =>
    if now < st.expiresAt then (some st, states)
    else (none, dictRemove states state_id)

/-- The numeral parsing of `handle_correction_response` (engine.py:129-133):
split on commas, strip, keep the parts that satisfy Python `str.isdigit()`
(non-empty, all digits), as numbers. -/
def parseChoices (user_input : String) : List Nat :=
  ((pySplitOn user_input ',').map pyStrip).filterMap (fun part =>
    if part.length > 0 && part.toList.all Char.isDigit then
      some (digitsVal part.toList)
    else none)

/-- The bare-numeric guard of `process_command` (engine.py:2903):
`text_lower.replace(',', '').replace(' ', '').isdigit()`. -/
def digitReplyGuard (s : String) : Bool :=
  let t := s.toList.filter (fun c => !(c == ',' || c == ' '))
  !t.isEmpty && t.all Char.isDigit

/-- One menu choice applied to one pending item correction
(engine.py:163-191), threading the response list and the PriceRanges sheet
(choice 4 widens the trained range via `train_price`). -/
def applyChoice (c : ItemCorr) (trans_id user_name todayStr : String)
    (acc : List String × List PriceRow) (choice : Nat) :
    List String × List PriceRow :=
  let (rs, rws) := acc
  if choice == 1 then
    (rs ++ ["✅ Noted: " ++ c.item ++ " at " ++ format_cedi c.amount ++
      " is a special/bulk purchase"], rws)
  else if choice == 2 then
    (rs ++ ["✅ Noted: " ++ c.item ++ " at " ++ format_cedi c.amount ++
      " is different quality/brand"], rws)
  else if choice == 3 then
    (rs ++ ["❌ Please delete and re-record with correct amount using:\n" ++
      "/delete ID:" ++ trans_id ++ "\nThen record again with correct amount."],
      rws)
  else if choice == 4 then
    let new_min := min c.min_price c.amount
    let new_max := max c.max_price c.amount
    let (_, rws2) := train_price rws c.item new_min new_max "" user_name todayStr
    (rs ++ ["📊 Updated price range for " ++ c.item ++ ": " ++
      format_cedi new_min ++ "-" ++ format_cedi new_max], rws2)
  else if choice == 5 then
    (rs ++ ["✅ Noted: " ++ c.item ++ " at " ++ format_cedi c.amount ++
      " is correct (ignoring warning)"], rws)
  else (rs, rws)

/-- The per-state-id loop body of `handle_correction_response`
(engine.py:152-191): fetch the correction through the TTL-checking
`get_correction` (which deletes stale entries as a side effect), skip it when
absent, otherwise apply every parsed choice.  A `state_id` can only name an
item entry (session keys are transaction ids, which never collide with the
generated `user_time` ids), so a transaction entry is skipped like an absent
one. -/
def correctionStep (numbers : List Nat) (trans_id user_name todayStr : String)
    (now : ℚ) (acc : List String × CorrStates × List PriceRow)
    (sid : String) : List String × CorrStates × List PriceRow :=
  let (resps, sts, rws) := acc
  match get_correction sts sid now with
  | (none, sts2) => (resps, sts2, rws)
  | (some (.trans _), sts2) => (resps, sts2, rws)
  | (some (.item c), sts2) =>
    let (resps2, rws2) :=
      numbers.foldl (applyChoice c trans_id user_name todayStr) (resps, rws)
    (resps2, sts2, rws2)

/-- The `active_corrections` selection of `handle_correction_response`
(engine.py:139-143): the transaction-level entries of this user (those that
carry `state_ids`) that are still unexpired. -/
def activeSessions (states : CorrStates) (user_name : String) (now : ℚ) :
    CorrStates :=
  states.filter (fun p =>
    match p.2 with
    | .trans t => t.user_id == user_name && now < t.expires_at
    | .item _ => false)

/-- `handle_correction_response` (engine.py:126-201).  Parses the numeric
reply; selects the most recent unexpired session of the user
(`active_corrections[-1]`, i.e. latest in dict insertion order); applies
every choice to every pending request of that session; then deletes the
session entry and all of its request entries.  Returns the joined responses
(or `None` when nothing applied), the updated correction dict and the
updated PriceRanges sheet. -/
def handle_correction_response (states : CorrStates) (rows : List PriceRow)
    (user_input user_name : String) (now : ℚ) (todayStr : String) :
    Option String × CorrStates × List PriceRow :=
  let numbers := parseChoices user_input
  if numbers.isEmpty then (none, states, rows)
  else
    let active := activeSessions states user_name now
    match active.getLast? with
    | none => (none, states, rows)
    | some (trans_id, entry) =>
      let state_ids := match entry with
        | .trans t => t.state_ids
        | .item _ => []
      let (responses, sts3, rows3) :=
        state_ids.foldl (correctionStep numbers trans_id user_name todayStr now)
          ([], states, rows)
      let sts4 := dictRemove sts3 trans_id
      let sts5 := state_ids.foldl (fun s sid => dictRemove s sid) sts4
      if responses.isEmpty then (none, sts5, rows3)
      else (some (pyIntercalate "\n" responses), sts5, rows3)

/-! ## Numerals, dates, and the remaining sheet row types -/

/-- Python `float(s)` restricted to the plain decimal literals the command
grammar produces: optional sign, digit run, optional fractional part.
(Exponents, inf/nan and underscore separators never occur in chat commands.) -/
def parseDecimal (s : String) : Option ℚ :=
  let t := pyStrip s
  let (sign, u) : ℚ × String :=
    if pyStartsWith t "-" then (-1, pyDrop t 1)
    else if pyStartsWith t "+" then (1, pyDrop t 1) else (1, t)
  let cs := u.toList
  let intPart := cs.takeWhile Char.isDigit
  let rest := cs.dropWhile Char.isDigit
  match rest with
  | [] =>
    if intPart.isEmpty then none else some (sign * (digitsVal intPart : ℚ))
  | '.' :: frac =>
    if frac.all Char.isDigit && !(intPart.isEmpty && frac.isEmpty) then
      some (sign * ((digitsVal intPart : ℚ) +
        (digitsVal frac : ℚ) / (10 : ℚ) ^ frac.length))
    else none
  | _ => none

/-- Calendar date, as carried by Python `datetime.date`. -/
structure Date where
  year : Nat
  month : Nat
  day : Nat
deriving Repr, DecidableEq

def isLeap (y : Nat) : Bool :=
  y % 4 == 0 && (y % 100 != 0 || y % 400 == 0)

def daysInMonth (y m : Nat) : Nat :=
  if m == 2 then (if isLeap y then 29 else 28)
  else if m == 4 || m == 6 || m == 9 || m == 11 then 30
  else 31

/-- Proleptic-Gregorian day number of a date (day 1 = 0001-01-01), the order
and difference on which Python date comparison and `timedelta` arithmetic
operate. -/
def Date.toOrd (d : Date) : Nat :=
  365 * (d.year - 1) + (d.year - 1) / 4 - (d.year - 1) / 100 +
    (d.year - 1) / 400 +
    (((List.range (d.month - 1)).map (fun i => daysInMonth d.year (i + 1))).sum) +
    d.day

/-- The `Last_Recorded` cell of a Recurring row: the literal `"Never"` or a
`%Y-%m-%d` date (the only two values the engine writes). -/
inductive LastRec where
  | never
  | onDate (d : Date)
deriving Repr, DecidableEq

/-- One data row of the Recurring sheet:
`Type, Amount, Description, Frequency, Last_Recorded, User, Status`. -/
structure RecRow where
  type_ : String
  amount : ℚ
  desc : String
  freq : String
  lastRecorded : LastRec
  user : String
  status : String
deriving Repr, DecidableEq

/-- The due test of `check_recurring_due` (engine.py:1408-1424), with the
frequency cell already lowered (`row[3].lower()`):
`"Never"` is always due; daily is due when `today > last`; weekly when
`today >= last + 7 days`; monthly when the month or year differs and either
the recorded day-of-month is reached or both days are at least 28. -/
def isDue (today : Date) (freqLower : String) (last : LastRec) : Bool :=
  match last with
  | .never => true
  | .onDate d =>
    if freqLower == "daily" then decide (d.toOrd < today.toOrd)
    else if freqLower == "weekly" then decide (d.toOrd + 7 ≤ today.toOrd)
    else if freqLower == "monthly" then
      (today.month != d.month || today.year != d.year) &&
      (decide (d.day ≤ today.day) ||
        (decide (28 ≤ today.day) && decide (28 ≤ d.day)))
    else false

/-- The selection loop of `check_recurring_due` (engine.py:1400-1433): the
user's active rows whose due test passes. -/
def check_recurring_due_items (rows : List RecRow) (user_name : String)
    (today : Date) : List RecRow :=
  rows.filter (fun r =>
    r.user == user_name && pyLower r.status == "active" &&
      isDue today (pyLower r.freq) r.lastRecorded)

/-- One data row of the Budgets sheet:
`Category_Item, Type, Budget_Amount, Period, Current_Spent, Remaining,
Start_Date, End_Date, User, Alert_At, Status, Notes`. -/
structure BudgetRow where
  item : String
  kind : String
  amount : ℚ
  period : String
  spent : ℚ
  remaining : ℚ
  startDate : String
  endDate : String
  user : String
  alertAt : Int
  status : String
  notes : String
deriving Repr, DecidableEq

/-- The alert dict returned by `update_budget_spending`. -/
structure BudgetAlert where
  category_item : String
  budget_amount : ℚ
  spent : ℚ
  remaining : ℚ
  percent_spent : ℚ
  alert_threshold : Int
deriving Repr, DecidableEq

/-- The row-matching test of `update_budget_spending` (engine.py:739-742):
same key (case-insensitive), same user, status `active`. -/
def budgetMatches (r : BudgetRow) (category_item user_name : String) : Bool :=
  pyLower (pyStrip r.item) == pyLower category_item &&
    pyStrip r.user == user_name && pyLower (pyStrip r.status) == "active"

/-- `update_budget_spending` (engine.py:728): walk the Budgets rows; on every
matching active row add the amount to `Current_Spent`, recompute `Remaining`,
and return an alert dict as soon as the spent percentage reaches the row's
alert threshold (later rows are then left untouched). -/
def update_budget_spending (category_item : String) (amount : ℚ)
    (user_name : String) : List BudgetRow → Option BudgetAlert × List BudgetRow
  | [] => (none, [])
  | r :: rest =>
    if budgetMatches r category_item user_name then
      let new_spent := r.spent + amount
      let remaining := r.amount - new_spent
      let r2 := { r with spent := new_spent, remaining := remaining }
      let percent_spent : ℚ :=
        if 0 < r.amount then new_spent / r.amount * 100 else 0
      if (r.alertAt : ℚ) ≤ percent_spent then
        (some { category_item := category_item, budget_amount := r.amount
                spent := new_spent, remaining := remaining
                percent_spent := percent_spent
                alert_threshold := r.alertAt }, r2 :: rest)
      else
        let (a, rest2) := update_budget_spending category_item amount user_name rest
        (a, r2 :: rest2)
    else
      let (a, rest2) := update_budget_spending category_item amount user_name rest
      (a, r :: rest2)

/-- One stored data row of a transaction sheet (Sales/Expenses/Income), with
the column layout written by `record_transaction`:
`ID, Date, Type, Amount, Description, Category, User, Timestamp`. -/
structure TxRow where
  id : String
  date : String
  type_ : String
  amount : ℚ
  description : String
  category : String
  user : String
  timestamp : String
deriving Repr, DecidableEq

/-- The transaction dict produced by `get_transactions` (a row plus the sheet
it came from). -/
structure Tx where
  id : String
  date : String
  type_ : String
  amount : ℚ
  description : String
  user : String
  category : String
  sheet : String
deriving Repr, DecidableEq

/-- One row of the DeletedTransactions archive sheet:
`ID, Date, Type, Amount, Description, Category, User, Original_Sheet,
Deleted_Timestamp, Reason`. -/
structure ArchRow where
  id : String
  date : String
  type_ : String
  amount : ℚ
  description : String
  category : String
  user : String
  originalSheet : String
  deletedTimestamp : String
  reason : String
deriving Repr, DecidableEq

/-- One row of the PriceHistory sheet, as written by `record_price_history`. -/
structure PriceHistRow where
  item : String
  date : String
  price : ℚ
  type_ : String
  quantity : ℚ
  unit : String
  user : String
  transactionId : String
  note : String
deriving Repr, DecidableEq

/-- One row of the Orders sheet:
`Order ID, Date Created, Client Name, Client Contact, Services, Total Amount,
Status, Payment Status, Delivery Info, Notes, Linked Sale ID`. -/
structure OrderRow where
  orderId : String
  dateCreated : String
  clientName : String
  clientContact : String
  services : String
  amount : ℚ
  status : String
  payStatus : String
  deliveryInfo : String
  notes : String
  linkedSaleId : String
deriving Repr, DecidableEq

/-- One row of the Goals sheet (`Month, Year, Target Type, Target Amount,
User, Status`). -/
structure GoalRow where
  month : String
  year : String
  targetType : String
  amount : ℚ
  user : String
  status : String
deriving Repr, DecidableEq

/-- One value of the global `ORDER_STATES` dict (engine.py:47, 1051-1055). -/
structure OrderFlowState where
  action : String
  order_id : String
  expires : ℚ
deriving Repr, DecidableEq

/-- The whole mutable world of the engine: the spreadsheet tables, the two
in-memory registries, and the source of fresh random id suffixes
(`secrets.token_hex(3).upper()`, modelled as an indexed supply).
`archiveOk` models whether the append to the DeletedTransactions sheet
succeeds (its failure is swallowed by `archive_deleted_transaction`). -/
structure Env where
  priceRanges : List PriceRow
  priceHistory : List PriceHistRow
  budgets : List BudgetRow
  recurring : List RecRow
  sales : List TxRow
  expenses : List TxRow
  income : List TxRow
  deletedTransactions : List ArchRow
  archiveOk : Bool
  orders : List OrderRow
  goals : List GoalRow
  corrections : CorrStates
  orderStates : List (String × OrderFlowState)
  randHex : Nat → String
  randCtr : Nat

/-- `TYPE_TO_SHEET` (engine.py:25). -/
def TYPE_TO_SHEET (t : String) : Option String :=
  if t == "sale" then some "Sales"
  else if t == "expense" then some "Expenses"
  else if t == "income" then some "Income"
  else none

/-- `generate_transaction_id` (engine.py:50): 3-letter uppercase prefix plus a
fresh random 6-hex suffix drawn from the supply. -/
def generate_transaction_id (e : Env) (trans_type : String) : String × Env :=
  (pyUpper (pyTake trans_type 3) ++ "-" ++ e.randHex e.randCtr,
    { e with randCtr := e.randCtr + 1 })

/-! ## Sheet access, deletion with archival, orders -/

/-- The ambient wall clock: `time.time()` plus the `strftime` renderings of
`datetime.now()` that the engine writes into cells.  The transport supplies
these; they are opaque inputs to the engine logic. -/
structure Clock where
  now : ℚ
  today : Date
  todayStr : String
  timeStr : String
  dateTimeStr : String
  deletedTsStr : String
  deliveredStr : String
  thirtyDaysAgoStr : String
  todayPlus1Str : String
  todayPlus7Str : String
  todayPlus30Str : String
  monthNameStr : String
  yearStr : String

def sheetRows (e : Env) (sheet : String) : List TxRow :=
  if sheet == "Sales" then e.sales
  else if sheet == "Expenses" then e.expenses
  else if sheet == "Income" then e.income
  else []

def setSheetRows (e : Env) (sheet : String) (rows : List TxRow) : Env :=
  if sheet == "Sales" then { e with sales := rows }
  else if sheet == "Expenses" then { e with expenses := rows }
  else if sheet == "Income" then { e with income := rows }
  else e

/-- Boolean string order (Python `<` on `%Y-%m-%d` date strings). -/
def strLt (a b : String) : Bool := lexLt a.toList b.toList

/-- List infix test (needle occurs contiguously in hay). -/
def containsSub (needle hay : List Char) : Bool :=
  match hay with
  | [] => needle.isEmpty
  | _ :: t => needle.isPrefixOf hay || containsSub needle t

/-- Python substring test `needle in hay`. -/
def strIn (needle hay : String) : Bool := containsSub needle.toList hay.toList

/-- `get_transactions` (engine.py:2055): read one sheet into transaction
dicts, applying the optional date-window and user filters (dates compare as
`%Y-%m-%d` strings). -/
def get_transactions (e : Env) (sheet : String)
    (start_date end_date user_filter : Option String) : List Tx :=
  (sheetRows e sheet).filterMap (fun r =>
    let dateOk1 := match start_date with
      | none => true
      | some s => !(strLt (pyStrip r.date) s)
    let dateOk2 := match end_date with
      | none => true
      | some s => !(strLt s (pyStrip r.date))
    let userOk := match user_filter with
      | none => true
      | some u => r.user == u
    if dateOk1 && dateOk2 && userOk then
      some { id := r.id, date := pyStrip r.date
             type_ := pyLower (pyStrip r.type_), amount := r.amount
             description := r.description, user := r.user
             category := r.category, sheet := sheet }
    else none)

def sheetForIdPrefix (p : String) : Option String :=
  if p == "SAL" then some "Sales"
  else if p == "EXP" then some "Expenses"
  else if p == "INC" then some "Income"
  else none

/-- `find_transaction_by_id` (engine.py:2207): route by the 3-letter id
prefix when recognised, else scan all three sheets; return the first
transaction of this user with the exact id. -/
def find_transaction_by_id (e : Env) (transaction_id user_name : String) :
    Option Tx :=
  if transaction_id == "" then none
  else
    let pfx := pyUpper ((pySplitOn transaction_id '-').headD "")
    let sheets := match sheetForIdPrefix pfx with
      | some s => [s]
      | none => ["Sales", "Expenses", "Income"]
    ((sheets.map (fun s => get_transactions e s none none (some user_name))).flatten).find?
      (fun t => t.id == transaction_id)

/-- `archive_deleted_transaction` (engine.py:2280): append the record to the
DeletedTransactions sheet; a failing append (modelled by `archiveOk = false`)
is swallowed (`except: pass  # Archive is optional`) and leaves the archive
unchanged. -/
def archive_deleted_transaction (e : Env) (t : Tx) (deleted_by deletedTs : String) :
    Env :=
  if e.archiveOk then
    { e with deletedTransactions := e.deletedTransactions ++
        [{ id := t.id, date := t.date, type_ := t.type_, amount := t.amount
           description := t.description, category := t.category, user := t.user
           originalSheet := t.sheet, deletedTimestamp := deletedTs
           reason := "Deleted by " ++ deleted_by ++ " via ID" }] }
  else e

def removeFirst {α : Type} (p : α → Bool) : List α → List α
  | [] => []
  | x :: xs => if p x then xs else x :: removeFirst p xs

def updateFirst {α : Type} (p : α → Bool) (f : α → α) : List α → List α
  | [] => []
  | x :: xs => if p x then f x :: xs else x :: updateFirst p f xs

/-- `delete_transaction_by_id` (engine.py:2235): locate the transaction,
attempt the archival append (best-effort), then remove the row from its
original sheet and report success. -/
def delete_transaction_by_id (e : Env) (transaction_id user_name deletedTs : String) :
    String × Env :=
  match find_transaction_by_id e transaction_id user_name with
  | none =>
    ("❌ Transaction not found or no permission to delete it.", e)
  | some t =>
    let rows := sheetRows e t.sheet
    let hit := fun (r : TxRow) => pyStrip r.id == transaction_id
    if (rows.find? hit).isSome then
      let e2 := archive_deleted_transaction e t user_name deletedTs
      let e3 := setSheetRows e2 t.sheet (removeFirst hit rows)
      ("✅ Deleted transaction " ++ transaction_id ++ " (" ++
        format_cedi t.amount ++ ")", e3)
    else ("❌ Transaction not found in sheet.", e)

/-- `delete_old_transaction` (engine.py:2337): for legacy rows without an id,
match by date, user and amount (within 0.01), archive best-effort, then remove
the first matching row. -/
def delete_old_transaction (e : Env) (t : Tx) (user_name deletedTs : String) :
    String × Env :=
  let rows := sheetRows e t.sheet
  let hit := fun (r : TxRow) =>
    pyStrip r.date == t.date && pyStrip r.user == user_name &&
      decide (|r.amount - t.amount| < 1 / 100)
  if (rows.find? hit).isSome then
    let e2 := archive_deleted_transaction e t user_name deletedTs
    ("✅ Deleted old transaction (" ++ format_cedi t.amount ++ ")",
      setSheetRows e2 t.sheet (removeFirst hit rows))
  else ("❌ Could not find matching transaction.", e)

/-- The head of `recent.sort(key=lambda x: x['date'], reverse=True)`: the
stable descending sort puts the first-listed transaction of maximal date
first, computed here directly by a fold. -/
def firstMaxByDate (l : List Tx) : Option Tx :=
  match l with
  | [] => none
  | x :: xs => some (xs.foldl (fun b y => if strLt b.date y.date then y else b) x)

/-- `delete_last_transaction` (engine.py:2316). -/
def delete_last_transaction (e : Env) (user_name deletedTs : String) :
    String × Env :=
  let recent := (["Sales", "Expenses", "Income"].map
    (fun s => get_transactions e s none none (some user_name))).flatten
  match firstMaxByDate recent with
  | none => ("❌ No recent transactions found.", e)
  | some t =>
    if t.id == "" then delete_old_transaction e t user_name deletedTs
    else delete_transaction_by_id e t.id user_name deletedTs

/-- `record_order` (engine.py:1016): append the order row; when no client
name was given, also open the `waiting_for_client_info` flow (10-minute
expiry) for the user and extend the reply with the client prompt. -/
def record_order (e : Env) (amount : ℚ) (description user_name : String)
    (linked_sale_id client_name client_contact : String) (now : ℚ)
    (dateTimeStr : String) : String × Env :=
  let (order_id, e1) := generate_transaction_id e "ORD"
  let payment_status := if linked_sale_id != "" then "Paid" else "Unpaid"
  let row : OrderRow :=
    { orderId := order_id, dateCreated := dateTimeStr
      clientName := client_name, clientContact := client_contact
      services := description, amount := amount, status := "Pending"
      payStatus := payment_status, deliveryInfo := ""
      notes := "Created by " ++ user_name, linkedSaleId := linked_sale_id }
  let e2 := { e1 with orders := e1.orders ++ [row] }
  let response := "📦 **ORDER CREATED: " ++ order_id ++ "**\n\n" ++
    "Services: " ++ description ++ "\nAmount: " ++ format_cedi amount ++
    "\nStatus: Pending | " ++ payment_status
  if client_name == "" then
    let flowState : OrderFlowState :=
      { action := "waiting_for_client_info", order_id := order_id,
        expires := now + 600 }
    let e3 := { e2 with
      orderStates := dictInsert e2.orderStates user_name flowState }
    (response ++ "\n\n🤔 **Who is this for?**\nPlease enter: Name, Number", e3)
  else (response, e2)

/-- Python `re.split(r'[,|]', user_input)` followed by stripping each part. -/
def splitNameContact (s : String) : List String :=
  ((((pySplitOn s ',').map (fun p => pySplitOn p '|')).flatten).map pyStrip)

/-- `handle_order_state` (engine.py:1180): the stateful client-info flow.  An
expired state is dropped lazily; within its window, any message is parsed as
`Name, Number`, the order row is updated and the state closed.  When the
order row is missing, Python falls off the `if` and returns `None` without
touching the state. -/
def handle_order_state (e : Env) (user_input user_name : String) (now : ℚ) :
    Option String × Env :=
  match dictGet e.orderStates user_name with
  | none => (none, e)
  | some st =>
    if now > st.expires then
      (none, { e with orderStates := dictRemove e.orderStates user_name })
    else if st.action == "waiting_for_client_info" then
      let parts := splitNameContact user_input
      let name := (parts.head?).getD "Unknown"
      let contact := ((parts.drop 1).head?).getD ""
      let oid := st.order_id
      let hit := fun (r : OrderRow) =>
        pyUpper (pyStrip r.orderId) == pyUpper oid
      if (e.orders.find? hit).isSome then
        let orders2 := updateFirst hit
          (fun r => { r with clientName := name, clientContact := contact })
          e.orders
        (some ("✅ **Order " ++ oid ++ " Updated!**\nClient: " ++ name ++
            "\nContact: " ++ contact ++ "\n\nType pending to see all orders."),
          { e with orders := orders2
                   orderStates := dictRemove e.orderStates user_name })
      else (none, e)
    else (none, e)

/-- `update_order_status` (engine.py:1063): set status and/or payment status
of the order with the given id. -/
def update_order_status (e : Env) (order_id : String)
    (status payment_status : Option String) (deliveredStr : String) :
    String × Env :=
  let clean := pyUpper (pyStrip order_id)
  let hit := fun (r : OrderRow) => pyUpper (pyStrip r.orderId) == clean
  if (e.orders.find? hit).isSome then
    let apply1 := fun (r : OrderRow) =>
      match status with
      | none => r
      | some s =>
        let r2 := { r with status := s }
        if pyLower s == "delivered" then
          { r2 with deliveryInfo := "Delivered on " ++ deliveredStr }
        else r2
    let apply2 := fun (r : OrderRow) =>
      match payment_status with
      | none => r
      | some p => { r with payStatus := p }
    let updates :=
      (match status with
        | none => []
        | some s => ["Status ➡️ " ++ s]) ++
      (match payment_status with
        | none => []
        | some p => ["Payment ➡️ " ++ p])
    ("✅ **Order " ++ order_id ++ " Updated!**\n" ++
        pyIntercalate "\n" updates,
      { e with orders := updateFirst hit (fun r => apply2 (apply1 r)) e.orders })
  else ("❌ Order " ++ order_id ++ " not found.", e)

/-! ## Text scanners: hashtags, whitespace collapsing, quantity detection -/

theorem dropWhile_length_le (p : Char → Bool) (l : List Char) :
    (l.dropWhile p).length ≤ l.length := by
  induction l with
  | nil => simp
  | cons h t ih =>
    rw [List.dropWhile_cons]
    by_cases hp : p h
    · simp only [hp, if_true]
      calc (List.dropWhile p t).length ≤ t.length := ih
        _ ≤ (h :: t).length := by simp
    · simp [hp]

/-- Python regex word character, `\w` = `[A-Za-z0-9_]`. -/
def isWordChar (c : Char) : Bool := c.isAlphanum || c == '_'

/-- `re.findall(r'#(\w+)', description)` (engine.py:1867): every `#`-prefixed
word-character run, in order.  The scanner flag is true while the consumed
match (the word-character run after an emitted tag) is being skipped, which
keeps the recursion structural. -/
def findHashtagsGo : Bool → List Char → List String
  | _, [] => []
  | skip, c :: rest =>
    if skip && isWordChar c then findHashtagsGo true rest
    else if c == '#' then
      let w := rest.takeWhile isWordChar
      if w.isEmpty then findHashtagsGo false rest
      else String.mk w :: findHashtagsGo true rest
    else findHashtagsGo false rest

def findHashtags (cs : List Char) : List String := findHashtagsGo false cs

/-- `re.sub(r'#\w+', '', description)` (engine.py:1870): drop every hashtag
(a `#` not followed by a word character stays); same skip-flag scheme. -/
def stripTagsGo : Bool → List Char → List Char
  | _, [] => []
  | skip, c :: rest =>
    if skip && isWordChar c then stripTagsGo true rest
    else if c == '#' then
      let w := rest.takeWhile isWordChar
      if w.isEmpty then c :: stripTagsGo false rest
      else stripTagsGo true rest
    else c :: stripTagsGo false rest

def stripTags (cs : List Char) : List Char := stripTagsGo false cs

/-- `re.sub(r'\s+', ' ', s)` (engine.py:1871): collapse whitespace runs to a
single space; the flag remembers that the previous character was part of a
whitespace run already replaced by the single space. -/
def collapseWsGo : Bool → List Char → List Char
  | _, [] => []
  | inWs, c :: rest =>
    if c.isWhitespace then
      if inWs then collapseWsGo true rest
      else ' ' :: collapseWsGo true rest
    else c :: collapseWsGo false rest

def collapseWs (cs : List Char) : List Char := collapseWsGo false cs

def isAsciiLetter (c : Char) : Bool := c.isAlpha

/-- One anchored attempt of the quantity pattern
`(\d+)\s*(?:x\s*)?([a-zA-Z]+)\b` (engine.py:208, case-insensitive): a digit
run, optional whitespace, an optional `x` separator, then a letter run that
ends at a word boundary.  The three further patterns of
`detect_quantity_and_unit` are only tried when this one has no match
anywhere, and each of them requires a digit run followed by a letter run,
which this pattern then also matches; so the first pattern decides the
result. -/
def qtyAt (cs : List Char) : Option (Nat × String) :=
  match cs with
  | [] => none
  | c :: _ =>
    if !c.isDigit then none
    else
      let digits := cs.takeWhile Char.isDigit
      let rest := cs.dropWhile Char.isDigit
      let afterWs := rest.dropWhile Char.isWhitespace
      let tryLetters := fun (l : List Char) =>
        let letters := l.takeWhile isAsciiLetter
        let rest2 := l.dropWhile isAsciiLetter
        if letters.isEmpty then none
        else match rest2 with
          | [] => some (digitsVal digits, String.mk letters)
          | d :: _ =>
            if isWordChar d then none
            else some (digitsVal digits, String.mk letters)
      match afterWs with
      | 'x' :: r2 =>
        ((tryLetters (r2.dropWhile Char.isWhitespace)).orElse
          (fun _ => tryLetters afterWs))
      | 'X' :: r2 =>
        ((tryLetters (r2.dropWhile Char.isWhitespace)).orElse
          (fun _ => tryLetters afterWs))
      | _ => tryLetters afterWs

/-- `re.search` of the quantity pattern: first anchored match, scanning left
to right. -/
def scanQty : List Char → Option (Nat × String)
  | [] => none
  | c :: rest =>
    match qtyAt (c :: rest) with
    | some r => some r
    | none => scanQty rest

/-- `detect_quantity_and_unit` (engine.py:204): quantity and lowercased unit
of the first match, defaulting to a single unnamed unit. -/
def detect_quantity_and_unit (description : String) : ℚ × String :=
  match scanQty description.toList with
  | some (q, u) => ((q : ℚ), pyLower u)
  | none => (1, "")

/-- `calculate_unit_price` (engine.py:223). -/
def calculate_unit_price (amount : ℚ) (description : String) : String :=
  let qu := detect_quantity_and_unit description
  if 1 < qu.1 then
    let unit_price := amount / qu.1
    if qu.2 != "" then "🧮 That is " ++ format_cedi unit_price ++ " per " ++ qu.2
    else "🧮 That is " ++ format_cedi unit_price ++ " per unit"
  else ""

/-- `auto_detect_items_in_description` (engine.py:473): every PriceRanges row
whose key occurs in the lowered description (plain substring, or surrounded
by spaces in the padded strings). -/
def auto_detect_items_in_description (rows : List PriceRow)
    (description : String) : List PriceRow :=
  let dl := pyLower description
  rows.filter (fun r =>
    let il := pyLower r.item
    strIn il dl || strIn (" " ++ il ++ " ") (" " ++ dl ++ " "))

/-- The suggestion dict built by `auto_suggest_price` (engine.py:233). -/
structure PriceSuggestion where
  item : String
  suggested : ℚ
  minP : ℚ
  maxP : ℚ
  confidence : Int
deriving Repr, DecidableEq

/-- `auto_suggest_price` (engine.py:233): midpoint of the best trained range
for the item, when one exists. -/
def auto_suggest_price (rows : List PriceRow) (item_name : String) :
    Option PriceSuggestion :=
  match check_price rows item_name 0 with
  | none => none
  | some pc =>
    some { item := item_name, suggested := (pc.range.minP + pc.range.maxP) / 2
           minP := pc.range.minP, maxP := pc.range.maxP
           confidence := pc.range.confidence }

/-- `record_price_history` (engine.py:531): append one PriceHistory row. -/
def record_price_history (e : Env) (item_name : String) (price : ℚ)
    (trans_type user_name transaction_id : String) (quantity : ℚ)
    (unit todayStr : String) : Env :=
  { e with priceHistory := e.priceHistory ++
      [{ item := item_name, date := todayStr, price := price
         type_ := trans_type, quantity := quantity, unit := unit
         user := user_name, transactionId := transaction_id
         note := "Recorded via transaction " ++ transaction_id }] }

/-! ## Client profile, expense audit, transaction recording -/

/-- `datetime.strptime(s, "%Y-%m-%d")`: succeeds exactly on `dddd-dd-dd`
digit strings (anything else, e.g. the longer datetime strings in
`Date Created` cells, raises and is skipped by the caller). -/
def parseYMD (s : String) : Option Date :=
  match pySplitOn s '-' with
  | [y, m, d] =>
    if y.length == 4 && m.length == 2 && d.length == 2 &&
        (y.toList.all Char.isDigit) && (m.toList.all Char.isDigit) &&
        (d.toList.all Char.isDigit) then
      some ⟨digitsVal y.toList, digitsVal m.toList, digitsVal d.toList⟩
    else none
  | _ => none

/-- The aggregate built by the scanning loops of `get_client_profile`
(engine.py:1764). -/
structure ClientData where
  name : String
  contact : String
  total_spent : ℚ
  order_count : Nat
  services : List String
  last_order : Option Date
deriving Repr, DecidableEq

/-- `get_client_profile` (engine.py:1764): scan Orders for name/contact
matches, then scan the Sales rows with the legacy column layout the loop
assumes (`row[1]` as amount, `row[2]` as description — on rows written by
`record_transaction` those cells hold the date and the type, so the float
parse fails and contributes nothing).  Returns the profile text or `None`
when nothing matched.  The last-order date display and the most-frequent
service tie-break (Python iterates a set) are rendered in simplified form;
the first four lines match the source layout, which is what
`record_transaction` slices. -/
def get_client_profile (e : Env) (search_term : String) : Option String :=
  let sl := pyLower search_term
  let cd0 : ClientData :=
    { name := search_term, contact := "", total_spent := 0, order_count := 0
      services := [], last_order := none }
  let cd1 := e.orders.foldl (fun cd r =>
    let cName := pyStrip r.clientName
    let cContact := pyStrip r.clientContact
    if strIn sl (pyLower cName) || strIn sl (pyLower cContact) then
      let svcs := if r.services != "" then cd.services ++ [r.services]
        else cd.services
      let cd2 := { cd with name := cName, contact := cContact,
                           order_count := cd.order_count + 1,
                           services := svcs }
      match parseYMD r.dateCreated with
      | none => cd2
      | some d =>
        match cd2.last_order with
        | none => { cd2 with last_order := some d }
        | some prev =>
          if prev.toOrd < d.toOrd then { cd2 with last_order := some d }
          else cd2
    else cd) cd0
  let cd := e.sales.foldl (fun cd r =>
    if strIn sl (pyLower r.type_) then
      match parseDecimal r.date with
      | some v => { cd with total_spent := cd.total_spent + v }
      | none => cd
    else cd) cd1
  if cd.order_count == 0 && cd.total_spent == 0 then none
  else
    let tier :=
      if 6 ≤ cd.order_count then "🥇 Gold Client"
      else if 3 ≤ cd.order_count then "🥈 Silver Client"
      else "🥉 Bronze Client"
    let base := "💎 **CLIENT PROFILE: " ++ cd.name ++ "**\n" ++
      "Loyalty: **" ++ tier ++ "**\n" ++
      "💰 Total Spent: " ++ format_cedi cd.total_spent ++ "\n" ++
      "📦 Total Orders: " ++ toString cd.order_count ++ "\n"
    let base2 := match cd.last_order with
      | some d => base ++ "🗓 Last Order: " ++ toString d.year ++ "-" ++
          toString d.month ++ "-" ++ toString d.day ++ "\n"
      | none => base
    let base3 := match cd.services with
      | [] => base2
      | s0 :: _ =>
        let top := cd.services.foldl (fun b x =>
          if (cd.services.count b) < (cd.services.count x) then x else b) s0
        base2 ++ "⭐ Top Service: " ++ top ++ "\n"
    some base3

/-- `get_category_averages` (engine.py:1458): per-category mean of the last
30 days of the user's expenses (categories in first-appearance order). -/
def get_category_averages (e : Env) (user_name : String) (clk : Clock) :
    List (String × ℚ) :=
  let expenses := get_transactions e "Expenses" (some clk.thirtyDaysAgoStr)
    none (some user_name)
  let catOf := fun (t : Tx) =>
    if t.category == "" then "Uncategorized" else t.category
  let cats := (expenses.map catOf).eraseDups
  cats.map (fun c =>
    let amts := expenses.filterMap (fun t =>
      if catOf t == c then some t.amount else none)
    (c, amts.sum / (amts.length : ℚ)))

/-- `audit_expense` (engine.py:1479): report a spending spike when the
amount exceeds 1.5 times the category average. -/
def audit_expense (e : Env) (category : String) (amount : ℚ)
    (user_name : String) (clk : Clock) : String :=
  let averages := get_category_averages e user_name clk
  let cat_key := if category == "" then "Uncategorized" else category
  match (averages.find? (fun p => p.1 == cat_key)).map (·.2) with
  | some avg =>
    if avg * (3 / 2) < amount then
      "\n⚠️ **SPENDING SPIKE!** This is above your usual average for #" ++
        category ++ " (" ++ format_cedi avg ++ ")."
    else ""
  | none => ""

/-- One entry of the `correction_states` list that `record_transaction`
accumulates (engine.py:1874-1932). -/
structure CorrectionPrompt where
  state_id : String
  item : String
  amount : ℚ
  status : PriceStatus
  rangeMin : ℚ
  rangeMax : ℚ
  difference : ℚ
deriving Repr, DecidableEq

/-- The anomaly collection step of `record_transaction` (engine.py:1879-1932):
register one item correction (TTL 300 s) for a non-`within` check result and
remember the prompt data.  For detected items the caller passes the range of
the detection row; for the category, the range of the check result itself, as
in the source. -/
def collectAnomaly (user_name transaction_id sheet_name : String)
    (trans_type clean_description category : String) (amount : ℚ) (now : ℚ)
    (item : String) (rMin rMax : ℚ) (pc : PriceCheck)
    (acc : CorrStates × List CorrectionPrompt) :
    CorrStates × List CorrectionPrompt :=
  let (sts, prompts) := acc
  let (state_id, sts2) := add_correction sts user_name transaction_id
    item amount rMin rMax sheet_name trans_type clean_description
    category user_name now
  (sts2, prompts ++ [{ state_id := state_id, item := item
                       amount := amount, status := pc.status
                       rangeMin := rMin, rangeMax := rMax
                       difference := pc.difference }])

/-- The price-alert block appended to the confirmation reply
(engine.py:1976-1993). -/
def anomalyPrompt (prompts : List CorrectionPrompt) : String :=
  let lines := prompts.enum.map (fun pi =>
    let p := pi.2
    let header := "\n" ++ toString (pi.1 + 1) ++ ". **" ++ p.item ++
      "** is usually " ++ format_cedi p.rangeMin ++ "-" ++
      format_cedi p.rangeMax ++ "\n"
    if p.status == PriceStatus.above then
      header ++ "   Your price: " ++ format_cedi p.amount ++
        " (higher by " ++ format_cedi p.difference ++ ")"
    else
      header ++ "   Your price: " ++ format_cedi p.amount ++
        " (lower by " ++ format_cedi p.difference ++ ")")
  "\n\n🤔 **PRICE CHECK ALERT:**\n" ++ String.join lines ++
    "\n\n**Is this because:**" ++
    "\n1. Special/bulk purchase?" ++
    "\n2. Different quality/brand?" ++
    "\n3. Wrong amount?" ++
    "\n4. Update price range?" ++
    "\n5. Ignore (it is correct)" ++
    "\n\n**Reply with numbers** (e.g., 1 or 1,4)"

/-- `record_transaction` (engine.py:1848): the Transaction Recorder.  In
order: id generation, category extraction and tag stripping, anomaly checks
over detected item mentions and the category (opening a correction session
when any anomaly exists), row persistence, client alert, unit-price note,
price-history logging, budget update, expense audit, and the auto-created
linked order for sales. -/
def record_transaction (e : Env) (clk : Clock) (trans_type : String)
    (amount : ℚ) (description user_name : String) : String × Env :=
  match TYPE_TO_SHEET (pyLower trans_type) with
  | none => ("❌ Unknown transaction type: " ++ trans_type ++ ".", e)
  | some sheet_name =>
    let (transaction_id, e1) := generate_transaction_id e trans_type
    let hashtags := findHashtags description.toList
    let category := hashtags.headD ""
    let clean_description :=
      if hashtags.isEmpty then description
      else String.mk (collapseWs
        (pyStrip (String.mk (stripTags description.toList))).toList)
    let detected := auto_detect_items_in_description e1.priceRanges
      clean_description
    let (sts1, prompts1) := detected.foldl (fun acc item =>
      match check_price e1.priceRanges item.item amount with
      | some pc =>
        if pc.status != PriceStatus.within then
          collectAnomaly user_name transaction_id sheet_name trans_type
            clean_description category amount clk.now item.item item.minP
            item.maxP pc acc
        else acc
      | none => acc) (e1.corrections, ([] : List CorrectionPrompt))
    let (sts2, prompts2) :=
      if category != "" then
        match check_price e1.priceRanges ("#" ++ category) amount with
        | some pc =>
          if pc.status != PriceStatus.within then
            collectAnomaly user_name transaction_id sheet_name trans_type
              clean_description category amount clk.now ("#" ++ category)
              pc.range.minP pc.range.maxP pc (sts1, prompts1)
          else (sts1, prompts1)
        | none => (sts1, prompts1)
      else (sts1, prompts1)
    let txRow : TxRow :=
      { id := transaction_id, date := clk.todayStr
        type_ := pyLower trans_type, amount := amount
        description := clean_description, category := category
        user := user_name, timestamp := clk.timeStr }
    let e2 := setSheetRows { e1 with corrections := sts2 } sheet_name
      (sheetRows e1 sheet_name ++ [txRow])
    let client_alert :=
      if pyLower trans_type == "sale" then
        let words := pySplitWs clean_description
        let potential_name := words.headD ""
        if 2 < potential_name.length then
          match get_client_profile e2 potential_name with
          | some profile =>
            let lines := pySplitOn profile '\n'
            "\n💡 **Returning Client Detected!**\n" ++ (lines.getD 1 "") ++
              " | " ++ (lines.getD 3 "")
          | none => ""
        else ""
      else ""
    let response0 := "✅ Recorded " ++ trans_type ++ " of " ++
      format_cedi amount ++
      (if category != "" then " in category: #" ++ category else "") ++
      "\n📝 **ID:** " ++ transaction_id ++ client_alert
    let upi := calculate_unit_price amount clean_description
    let response1 := if upi != "" then response0 ++ "\n" ++ upi else response0
    let withSession :=
      if prompts2.isEmpty then (response1, e2)
      else
        let sess : TransCorr :=
          { state_ids := prompts2.map (·.state_id), user_id := user_name
            timestamp := clk.now, expires_at := clk.now + 300 }
        (response1 ++ anomalyPrompt prompts2,
          { e2 with corrections :=
              dictInsert e2.corrections transaction_id (CorrEntry.trans sess) })
    let response2 := withSession.1
    let e3 := withSession.2
    let e4 := detected.foldl (fun acc item =>
      let qu := detect_quantity_and_unit clean_description
      record_price_history acc item.item amount trans_type user_name
        transaction_id qu.1 qu.2 clk.todayStr) e3
    let e5 :=
      if category != "" then
        record_price_history e4 ("#" ++ category) amount trans_type user_name
          transaction_id 1 "" clk.todayStr
      else e4
    let budgetStep :=
      if category != "" then
        update_budget_spending ("#" ++ category) amount user_name e5.budgets
      else (none, e5.budgets)
    let e6 := { e5 with budgets := budgetStep.2 }
    let response3 := match budgetStep.1 with
      | some a => response2 ++ "\n\n⚠️ **BUDGET ALERT:** #" ++ category ++
          "\nSpent: " ++ format_cedi a.spent ++ " of " ++
          format_cedi a.budget_amount ++
          "\nRemaining: " ++ format_cedi a.remaining ++
          "\nProgress: " ++ toString a.percent_spent ++ "% (alert at " ++
          toString a.alert_threshold ++ "%)"
      | none => response2
    let response4 :=
      if pyLower trans_type == "expense" then
        let audit := audit_expense e6 category amount user_name clk
        if audit != "" then response3 ++ "\n" ++ audit else response3
      else response3
    if pyLower trans_type == "sale" then
      let orderStep := record_order e6 amount description user_name
        transaction_id "" "" clk.now clk.dateTimeStr
      (response4 ++ "\n\n" ++ orderStep.1, orderStep.2)
    else (response4, e6)

/-- `add_recurring_transaction` (engine.py:1362): validate the frequency and
append the template with `Last_Recorded = "Never"` and status `Active`. -/
def add_recurring_transaction (e : Env) (trans_type : String) (amount : ℚ)
    (description frequency user_name : String) : String × Env :=
  let freq_lower := pyLower frequency
  if freq_lower != "daily" && freq_lower != "weekly" &&
      freq_lower != "monthly" then
    ("❌ Frequency must be daily, weekly, or monthly.", e)
  else
    ("🔄 **Recurring " ++ trans_type ++ " added!**\nAmount: " ++
        format_cedi amount ++ "\nFrequency: " ++ frequency ++
        "\nDescription: " ++ description,
      { e with recurring := e.recurring ++
          [{ type_ := pyLower trans_type, amount := amount
             desc := description, freq := freq_lower
             lastRecorded := LastRec.never, user := user_name
             status := "Active" }] })

/-- `check_recurring_due` (engine.py:1388): list the user's due templates;
with `auto_record`, post each one through the Recorder and stamp its
`Last_Recorded` cell with today. -/
def check_recurring_due (e : Env) (clk : Clock) (user_name : String)
    (auto_record : Bool) : String × Env :=
  let due_items := check_recurring_due_items e.recurring user_name clk.today
  if due_items.isEmpty then ("", e)
  else if auto_record then
    let step := fun (acc : List String × Env) (item : RecRow) =>
      let (msgs, env) := acc
      let recStep := record_transaction env clk item.type_ item.amount
        item.desc user_name
      let rec2 := updateFirst (fun r => r == item)
        (fun r => { r with lastRecorded := LastRec.onDate clk.today })
        recStep.2.recurring
      let env3 := { recStep.2 with recurring := rec2 }
      (msgs ++ ["✅ Auto-recorded: " ++ item.desc], env3)
    let fin := due_items.foldl step ([], e)
    (pyIntercalate "\n" fin.1, fin.2)
  else
    ("🔄 **" ++ toString due_items.length ++ " Recurring Items Due:**\n" ++
      String.join (due_items.map (fun item =>
        "• " ++ item.desc ++ " (" ++ format_cedi item.amount ++ ")\n")) ++
      "\n💡 Type record due to post them all now.", e)

/-- `set_budget` (engine.py:668): upsert the budget row for
`(key, user)`, resetting `Current_Spent` to 0 and `Remaining` to the amount. -/
def set_budget (e : Env) (clk : Clock) (category_item : String)
    (budget_amount : ℚ) (period user_name : String) (alert_at : Int) :
    String × Env :=
  let hit := fun (r : BudgetRow) =>
    pyLower (pyStrip r.item) == pyLower category_item &&
      pyStrip r.user == user_name
  if period != "daily" && period != "weekly" && period != "monthly" then
    ("❌ Invalid period. Use: daily, weekly, monthly", e)
  else
    let endDate :=
      if period == "daily" then clk.todayPlus1Str
      else if period == "weekly" then clk.todayPlus7Str
      else clk.todayPlus30Str
    let newRow : BudgetRow :=
      { item := pyStrip category_item
        kind := if pyStartsWith category_item "#" then "category" else "item"
        amount := budget_amount, period := period, spent := 0
        remaining := budget_amount, startDate := clk.todayStr
        endDate := endDate, user := user_name, alertAt := alert_at
        status := "active"
        notes := "Set by " ++ user_name ++ " on " ++ clk.todayStr }
    let found := (e.budgets.find? hit).isSome
    let budgets2 :=
      if found then updateFirst hit (fun _ => newRow) e.budgets
      else e.budgets ++ [newRow]
    ("✅ " ++ (if found then "Updated" else "Set") ++ " budget for " ++
        category_item ++ ": " ++ format_cedi budget_amount ++ " " ++ period,
      { e with budgets := budgets2 })

/-- `check_budget_alerts` (engine.py:777): on-demand scan of the user's
active budgets for threshold breaches. -/
def check_budget_alerts (e : Env) (user_name : String) : List BudgetAlert :=
  e.budgets.filterMap (fun r =>
    if pyStrip r.user == user_name && pyLower (pyStrip r.status) == "active" &&
        0 < r.amount then
      let pct := r.spent / r.amount * 100
      if (r.alertAt : ℚ) ≤ pct then
        some { category_item := r.item, budget_amount := r.amount
               spent := r.spent, remaining := r.amount - r.spent
               percent_spent := pct, alert_threshold := r.alertAt }
      else none
    else none)

/-! ## Command parsing and the main command processor (engine.py:2878-3506) -/

/-- The value handed back to the transport: Python `None`, a plain reply
string, or a document dict (`/export`, `/invoice`). -/
inductive PyVal where
  | none
  | str (s : String)
  | doc (filename : String)
deriving Repr, DecidableEq

/-- Python `int(s)` on a plain (optionally signed) digit string. -/
def parseIntStr (s : String) : Option Int :=
  let t := pyStrip s
  let (sign, u) : Int × String :=
    if pyStartsWith t "-" then (-1, pyDrop t 1)
    else if pyStartsWith t "+" then (1, pyDrop t 1) else (1, t)
  if u.length > 0 && u.toList.all Char.isDigit then
    some (sign * (digitsVal u.toList : Int))
  else none

/-- Remove the first occurrence of a (non-empty) pattern from a string
(Python `s.replace(pat, '', 1)`). -/
def removeFirstSub (pat : List Char) : List Char → List Char
  | [] => []
  | c :: t =>
    if pat.isPrefixOf (c :: t) then (c :: t).drop pat.length
    else c :: removeFirstSub pat t

def pyReplaceFirst (s pat : String) : String :=
  String.mk (removeFirstSub pat.toList s.toList)

/-- `re.sub(r'^[:\s]+|[:\s]+$', '', s)` (engine.py:2894): strip colons and
whitespace from both ends. -/
def stripColonWs (s : String) : String :=
  let p := fun (c : Char) => c == ':' || c.isWhitespace
  String.mk (((s.toList.dropWhile p).reverse.dropWhile p).reverse)

/-- The result tuple of `parse_train_command` (engine.py:821): on success the
item and the two prices are present and the fourth slot is the unit; on
failure the first three are `None` and the fourth slot carries the error
message. -/
structure TrainParseResult where
  item : Option String
  minPrice : Option ℚ
  maxPrice : Option ℚ
  fourth : String
deriving Repr, DecidableEq

/-- `parse_train_command` (engine.py:821): strip the `+train` marker, read a
(possibly quoted) item name, then collect the first two numbers from the
remainder; every other token (including any third number) joins the unit. -/
def parse_train_command (text0 : String) : TrainParseResult :=
  let text1 := pyStrip text0
  let text :=
    if pyStartsWith (pyLower text1) "+train" then pyStrip (pyDrop text1 6)
    else text1
  let sq : Char := Char.ofNat 39
  let afterQuote := fun (cs : List Char) (q : Char) =>
    let itemCs := cs.takeWhile (fun c => c != q)
    match cs.dropWhile (fun c => c != q) with
    | [] => Option.none
    | _ :: tail => some (String.mk itemCs, pyStrip (String.mk tail))
  let parsedName : Option (String × String) :=
    match text.toList with
    | '"' :: cs => afterQuote cs '"'
    | c :: cs =>
      if c == sq then afterQuote cs sq
      else
        let parts := pySplitWs text
        if 3 ≤ parts.length then
          some (parts.headD "", pyIntercalate " " (parts.drop 1))
        else Option.none
    | [] => Option.none
  match parsedName with
  | Option.none =>
    { item := Option.none, minPrice := Option.none, maxPrice := Option.none
      fourth := "❌ Could not parse item name. Use quotes for multi-word items." }
  | some (item_name, remaining) =>
    let step := fun (acc : List ℚ × List String) (part : String) =>
      match parseDecimal part with
      | some n =>
        if acc.1.length < 2 then (acc.1 ++ [n], acc.2)
        else (acc.1, acc.2 ++ [part])
      | Option.none => (acc.1, acc.2 ++ [part])
    let numsUnits := (pySplitWs remaining).foldl step ([], [])
    if numsUnits.1.length < 2 then
      { item := Option.none, minPrice := Option.none, maxPrice := Option.none
        fourth := "❌ Please provide both minimum and maximum prices." }
    else
      { item := some item_name
        minPrice := some (numsUnits.1.headD 0)
        maxPrice := some ((numsUnits.1.drop 1).headD 0)
        fourth := pyIntercalate " " numsUnits.2 }

/-- The `+train` branch of `process_command` (engine.py:3207-3228): parse,
validate the two prices, and train.  When the parse fails, the source runs
`return min_price  # This contains the error message`; on the failure tuple
`min_price` is None (the message sits in the fourth slot), so the processor
returns Python None there. -/
def handle_train_branch (rows : List PriceRow) (text user_name todayStr : String) :
    PyVal × List PriceRow :=
  let r := parse_train_command text
  match r.item with
  | Option.none => (PyVal.none, rows)
  | some item_name =>
    match r.minPrice, r.maxPrice with
    | some mn, some mx =>
      if mx ≤ mn then
        (PyVal.str "❌ Minimum price must be less than maximum price.", rows)
      else if (10000000 : ℚ) < mx then
        (PyVal.str "❌ Price seems unrealistic. Please check the amount.", rows)
      else
        let t := train_price rows item_name mn mx r.fourth user_name todayStr
        (PyVal.str t.1, t.2)
    | _, _ =>
      (PyVal.str "❌ Invalid price format. Use numbers like: 40 45", rows)

/-- `set_goal` (engine.py:1259): deactivate this month/type/user goals, then
append the new active goal. -/
def set_goal (e : Env) (clk : Clock) (amount : ℚ)
    (target_type user_name : String) : String × Env :=
  let deactivated := e.goals.map (fun r =>
    if r.month == clk.monthNameStr && r.year == clk.yearStr &&
        pyLower r.targetType == pyLower target_type && r.user == user_name then
      { r with status := "Inactive" }
    else r)
  ("🎯 **Goal Set for " ++ clk.monthNameStr ++ "!**\nTarget: " ++
      format_cedi amount ++ " " ++ target_type ++ "\nLets get to work! 🚀",
    { e with goals := deactivated ++
        [{ month := clk.monthNameStr, year := clk.yearStr
           targetType := target_type, amount := amount, user := user_name
           status := "Active" }] })

/-- The empty-input guidance string (engine.py:2881; the source apostrophe is
rendered as a full word). -/
def emptyInputReply : String :=
  "🤔 I am ready to help! Need to record a transaction or check your finances?"

/-- The unrecognized-command fallback (engine.py:3491-3506, apostrophe-free
rendering). -/
def unknownCommandReply : String :=
  "🤔 I did not understand that.\n\n**QUICK OPTIONS:**\n" ++
  "• Record transaction: +expense 100 Lunch or +sale 500 Project\n" ++
  "• Check finances: balance, today, week\n" ++
  "• Learn how: tutorial (beginner guide) or quickstart (fast start)\n" ++
  "• See all commands: help\n\n**NEW SMART FEATURES:**\n" ++
  "1. +train \"item\" 100 200 - Train price ranges\n" ++
  "2. +budget #category 1000 monthly - Set budget\n" ++
  "3. price_history \"item\" - Check price trends\n" ++
  "4. list - See your recent transactions\n" ++
  "5. show_prices - See trained items\n\nWhat would you like to do?"

/-- The deletion help text (engine.py:3462-3477, abbreviated). -/
def deletionHelpReply : String :=
  "🗑️ **DELETION HELP**\n\n**HOW TO DELETE:**\n" ++
  "1. First, find the transaction ID: type list\n" ++
  "2. Then delete it: /delete ID:EXP-ABC123, /delete last, or /delete"

/-- Reply text of the read-only learning/report branches (tutorial, help,
summaries, listings, trends, insights, goal progress).  The engine builds
long formatted strings from the same store reads; none of the claims concern
these texts, so the model keeps each branch and its guard and tags the reply
with the branch name and its argument. -/
def reportText (tag arg : String) : String :=
  "📊 **" ++ tag ++ "** " ++ arg

/-- The quick-record suggestion reply (engine.py:2915-2925). -/
def quickRecordReply (s : PriceSuggestion) : String :=
  "💰 **" ++ s.item ++ "** detected!\n\nExpected range: " ++
    format_cedi s.minP ++ " - " ++ format_cedi s.maxP ++
    "\nSuggested price: " ++ format_cedi s.suggested ++
    "\n\n**Quick record options:**\n1. Sale: +sale " ++
    toString s.suggested ++ " " ++ s.item ++
    "\n2. Expense: +expense " ++ toString s.suggested ++ " " ++ s.item ++
    "\n3. Custom amount: +sale [amount] " ++ s.item ++
    "\n\nConfidence: " ++ toString s.confidence ++ "%"

/-- `process_command` (engine.py:2878): the intent classifier and dispatcher.
Branches appear in the exact priority order of the source; `BOT_USERNAME` is
unset in this deployment (engine.py:31), so the mention-stripping block is a
no-op.  The Python function returns a value to the transport; the model also
returns the updated world. -/
def process_command (e0 : Env) (clk : Clock) (user_input user_name : String) :
    PyVal × Env :=
  if user_input == "" then (PyVal.str emptyInputReply, e0)
  else
  let text := pyStrip user_input
  let text_lower := stripColonWs (pyLower text)
  let osr := handle_order_state e0 text user_name clk.now
  match osr.1 with
  | some r => (PyVal.str r, osr.2)
  | Option.none =>
  let e1 := osr.2
  let corrStep :=
    if digitReplyGuard text_lower then
      handle_correction_response e1.corrections e1.priceRanges text_lower
        user_name clk.now clk.todayStr
    else (Option.none, e1.corrections, e1.priceRanges)
  let e2 := { e1 with corrections := corrStep.2.1
                      priceRanges := corrStep.2.2 }
  match corrStep.1 with
  | some r => (PyVal.str r, e2)
  | Option.none =>
  let suggestion :=
    if !(["+", "/", "balance", "today", "week", "month", "help",
          "tutorial"].any (fun p => pyStartsWith text_lower p)) then
      auto_suggest_price e2.priceRanges text_lower
    else Option.none
  match suggestion with
  | some s => (PyVal.str (quickRecordReply s), e2)
  | Option.none =>
  if ["tutorial", "guide", "walkthrough", "learn", "howto"].contains
      text_lower then
    (PyVal.str (reportText "TUTORIAL" ""), e2)
  else if ["quickstart", "quick", "start", "getting started"].contains
      text_lower then
    (PyVal.str (reportText "QUICK START" ""), e2)
  else if ["examples", "example", "show me"].contains text_lower then
    (PyVal.str (reportText "EXAMPLES" ""), e2)
  else if ["help", "/start", "/help", "commands", "menu",
      "what can you do"].contains text_lower then
    (PyVal.str (reportText "HELP" ""), e2)
  else if pyStartsWith text_lower "unitprice " ||
      pyStartsWith text_lower "perunit " then
    let parts := pySplitWs text
    if 3 ≤ parts.length then
      match parseDecimal (parts.getD 1 "") with
      | some amount =>
        let result := calculate_unit_price amount
          (pyIntercalate " " (parts.drop 2))
        if result != "" then (PyVal.str result, e2)
        else (PyVal.str ("❌ Could not detect quantity in description. " ++
          "Format: unitprice 500 10 chairs"), e2)
      | Option.none => (PyVal.str "❌ Invalid amount format", e2)
    else
      (PyVal.str "❌ Format: unitprice [total] [description with quantity]", e2)
  else if pyStartsWith text_lower "price_history " ||
      pyStartsWith text_lower "trends " then
    (PyVal.str (reportText "PRICE TRENDS" text), e2)
  else if pyStartsWith text_lower "compare " ||
      pyStartsWith text_lower "best_price " then
    (PyVal.str (reportText "PRICE COMPARISON" text), e2)
  else if pyStartsWith text_lower "+budget " ||
      pyStartsWith text_lower "set_budget " then
    let parts := pySplitWs text
    if 4 ≤ parts.length then
      let category_item := parts.getD 1 ""
      let alertOpt := if 4 < parts.length then parseIntStr (parts.getD 4 "")
        else some 80
      match parseDecimal (parts.getD 2 ""), alertOpt with
      | some budget_amount, some alert_at =>
        let period := pyLower (parts.getD 3 "")
        if period != "daily" && period != "weekly" && period != "monthly" then
          (PyVal.str "❌ Period must be: daily, weekly, monthly", e2)
        else if !(0 < alert_at && alert_at ≤ 100) then
          (PyVal.str "❌ Alert percentage must be between 1-100", e2)
        else
          let sb := set_budget e2 clk category_item budget_amount period
            user_name alert_at
          (PyVal.str sb.1, sb.2)
      | _, _ =>
        (PyVal.str ("❌ Invalid amount format. Example: +budget #marketing " ++
          "1000 monthly 80"), e2)
    else
      (PyVal.str ("❌ Format: +budget [category/item] [amount] " ++
        "[daily/weekly/monthly] [alert_percentage]"), e2)
  else if ["budgets", "my_budgets", "show_budgets"].contains text_lower then
    (PyVal.str (reportText "YOUR BUDGETS"
      (toString (check_budget_alerts e2 user_name).length)), e2)
  else if pyStartsWith text_lower "+delete_budget " then
    let parts := pySplitWs text
    if 2 ≤ parts.length then
      let category_item := parts.getD 1 ""
      let hit := fun (r : BudgetRow) =>
        pyLower (pyStrip r.item) == pyLower category_item &&
          pyStrip r.user == user_name
      if (e2.budgets.find? hit).isSome then
        let budgets2 := updateFirst hit
          (fun r => { r with status := "deleted" }) e2.budgets
        (PyVal.str ("✅ Deleted budget for " ++ category_item),
          { e2 with budgets := budgets2 })
      else (PyVal.str ("❌ No budget found for " ++ category_item), e2)
    else (PyVal.str "❌ Format: +delete_budget [category/item]", e2)
  else if text_lower == "budget_summary" then
    (PyVal.str (reportText "BUDGET SUMMARY" ""), e2)
  else if pyStartsWith text_lower "+train" then
    let t := handle_train_branch e2.priceRanges text user_name clk.todayStr
    (t.1, { e2 with priceRanges := t.2 })
  else if pyStartsWith text_lower "+forget" then
    let parts := pySplitWs text
    if parts.length < 2 then (PyVal.str "❌ Format: +forget [item]", e2)
    else
      let item0 := pyIntercalate " " (parts.drop 1)
      let item_name :=
        if pyStartsWith item0 "\"" && pyEndsWith item0 "\"" then
          pyDropRight (pyDrop item0 1) 1
        else item0
      let f := forget_price e2.priceRanges item_name
      (PyVal.str f.1, { e2 with priceRanges := f.2 })
  else if pyStartsWith text_lower "price_check" then
    let parts := pySplitWs text
    if parts.length < 2 then (PyVal.str "❌ Format: price_check [item]", e2)
    else
      let item0 := pyIntercalate " " (parts.drop 1)
      let item_name :=
        if pyStartsWith item0 "\"" && pyEndsWith item0 "\"" then
          pyDropRight (pyDrop item0 1) 1
        else item0
      match check_price e2.priceRanges item_name 0 with
      | Option.none =>
        (PyVal.str ("❌ No price training found for " ++ item_name), e2)
      | some pc =>
        (PyVal.str ("💰 **PRICE CHECK: " ++ pc.range.item ++
          "**\n\nExpected Range: " ++ format_cedi pc.range.minP ++ " - " ++
          format_cedi pc.range.maxP ++
          (if pc.range.unit != "" then " " ++ pc.range.unit else "") ++
          "\nConfidence: " ++ toString pc.range.confidence ++ "%"), e2)
  else if ["show_prices", "list_prices", "trained_items", "prices"].contains
      text_lower then
    (PyVal.str (reportText "TRAINED PRICE RANGES"
      (toString e2.priceRanges.length)), e2)
  else if pyStartsWith text_lower "+order" then
    let parts := pySplitWs text
    if parts.length < 3 then
      (PyVal.str "❌ Format: +order [amount] [description]", e2)
    else match parseDecimal (parts.getD 1 "") with
      | some amount =>
        let ro := record_order e2 amount
          (pyIntercalate " " (parts.drop 2)) user_name "" "" ""
          clk.now clk.dateTimeStr
        (PyVal.str ro.1, ro.2)
      | Option.none => (PyVal.str "❌ Amount must be a number.", e2)
  else if pyStartsWith text_lower "done " then
    let u := update_order_status e2 (pyUpper (pyStrip (pyDrop text 5)))
      (some "Delivered") (some "Paid") clk.deliveredStr
    (PyVal.str u.1, u.2)
  else if pyStartsWith text_lower "ready " then
    let u := update_order_status e2 (pyUpper (pyStrip (pyDrop text 6)))
      (some "Ready for Delivery") Option.none clk.deliveredStr
    (PyVal.str u.1, u.2)
  else if pyStartsWith text_lower "paid " then
    let u := update_order_status e2 (pyUpper (pyStrip (pyDrop text 5)))
      Option.none (some "Paid") clk.deliveredStr
    (PyVal.str u.1, u.2)
  else if text_lower == "orders" then
    (PyVal.str (reportText "RECENT ORDERS" (toString e2.orders.length)), e2)
  else if text_lower == "pending" then
    (PyVal.str (reportText "PENDING ORDERS" (toString e2.orders.length)), e2)
  else if pyStartsWith text_lower "search " then
    (PyVal.str (reportText "SEARCH RESULTS" (pyStrip (pyDrop text 7))), e2)
  else if ["remind", "reminders", "pending_orders"].contains text_lower then
    (PyVal.str (reportText "ORDER REMINDERS" ""), e2)
  else if ["insights", "top services", "service insights",
      "reports"].contains text_lower then
    (PyVal.str (reportText "SERVICE INSIGHTS" ""), e2)
  else if pyStartsWith text_lower "+goal " then
    let parts := pySplitWs text
    if 2 ≤ parts.length then
      match parseDecimal (parts.getD 1 "") with
      | some amount =>
        let target_type :=
          if 2 < parts.length then pyLower (parts.getD 2 "") else "profit"
        let sg := set_goal e2 clk amount target_type user_name
        (PyVal.str sg.1, sg.2)
      | Option.none =>
        (PyVal.str "❌ Amount must be a number. Example: +goal 5000 profit", e2)
    else (PyVal.str "❌ Format: +goal [amount] [type]", e2)
  else if ["goals", "goal", "my goals"].contains text_lower then
    (PyVal.str (reportText "GOAL PROGRESS" ""), e2)
  else if pyStartsWith text_lower "client " then
    let name := pyStrip (pyDrop text 7)
    match get_client_profile e2 name with
    | some p => (PyVal.str p, e2)
    | Option.none =>
      (PyVal.str ("🔍 No history found for " ++ name ++ "."), e2)
  else if pyStartsWith text_lower "+recurring " then
    let parts := pySplitWs text
    if 5 ≤ parts.length then
      match parseDecimal (parts.getD 2 "") with
      | some amount =>
        let ar := add_recurring_transaction e2 (pyLower (parts.getD 1 ""))
          amount (pyIntercalate " " (parts.drop 4))
          (pyLower (parts.getD 3 "")) user_name
        (PyVal.str ar.1, ar.2)
      | Option.none => (PyVal.str "❌ Amount must be a number.", e2)
    else
      (PyVal.str ("❌ Format: +recurring [sale/expense] [amount] " ++
        "[daily/weekly/monthly] [description]"), e2)
  else if text_lower == "record due" then
    let cr := check_recurring_due e2 clk user_name true
    (PyVal.str cr.1, cr.2)
  else if pyStartsWith text_lower "/export" then
    -- PDF rendering is an excluded collaborator; the export reply is the
    -- document value with the period-named file.
    let parts := pySplitWs text
    let period := if 1 < parts.length then pyLower (parts.getD 1 "")
      else "month"
    (PyVal.doc ("financial_report_" ++ period ++ ".pdf"), e2)
  else if pyStartsWith text_lower "/invoice" then
    let parts := pySplitWs text
    if parts.length < 2 then (PyVal.str "❌ Use: /invoice ORDER_ID", e2)
    else
      let order_id := pyUpper (parts.getD 1 "")
      if (e2.orders.find? (fun r =>
          pyUpper (pyStrip r.orderId) == order_id)).isSome then
        (PyVal.doc ("invoice_" ++ order_id ++ ".pdf"), e2)
      else (PyVal.str ("❌ Order " ++ order_id ++ " not found."), e2)
  else if pyStartsWith text_lower "+sale" then
    let parts := pySplitWs text
    if parts.length < 3 then
      (PyVal.str "❌ Format: +sale [amount] [description]", e2)
    else match parseDecimal (parts.getD 1 "") with
      | some amount =>
        let rt := record_transaction e2 clk "sale" amount
          (pyIntercalate " " (parts.drop 2)) user_name
        (PyVal.str rt.1, rt.2)
      | Option.none => (PyVal.str "❌ Amount must be a number.", e2)
  else if pyStartsWith text_lower "+expense" then
    let parts := pySplitWs text
    if parts.length < 3 then
      (PyVal.str "❌ Format: +expense [amount] [description]", e2)
    else match parseDecimal (parts.getD 1 "") with
      | some amount =>
        let rt := record_transaction e2 clk "expense" amount
          (pyIntercalate " " (parts.drop 2)) user_name
        (PyVal.str rt.1, rt.2)
      | Option.none => (PyVal.str "❌ Amount must be a number.", e2)
  else if pyStartsWith text_lower "+income" then
    let parts := pySplitWs text
    if parts.length < 3 then
      (PyVal.str "❌ Format: +income [amount] [description]", e2)
    else match parseDecimal (parts.getD 1 "") with
      | some amount =>
        let rt := record_transaction e2 clk "income" amount
          (pyIntercalate " " (parts.drop 2)) user_name
        (PyVal.str rt.1, rt.2)
      | Option.none => (PyVal.str "❌ Amount must be a number.", e2)
  else if ["balance", "profit", "net"].contains text_lower then
    (PyVal.str (reportText "BALANCE" ""), e2)
  else if ["today", "today?", "today."].contains text_lower then
    (PyVal.str (reportText "TODAYS SUMMARY" clk.todayStr), e2)
  else if ["week", "weekly", "this week"].contains text_lower then
    (PyVal.str (reportText "WEEK SUMMARY" ""), e2)
  else if ["month", "monthly", "this month"].contains text_lower then
    (PyVal.str (reportText "MONTH SUMMARY" ""), e2)
  else if ["categories", "category", "/categories"].contains text_lower then
    (PyVal.str (reportText "CATEGORIES" ""), e2)
  else if ["list", "transactions", "/list"].contains text_lower then
    (PyVal.str (reportText "YOUR RECENT TRANSACTIONS" "10"), e2)
  else if pyStartsWith text_lower "delete" || pyStartsWith text_lower "/delete" then
    let delete_part :=
      pyStrip (pyReplaceFirst (pyReplaceFirst text_lower "delete") "/")
    if delete_part == "" then
      (PyVal.str (reportText "YOUR RECENT TRANSACTIONS" "5"), e2)
    else if delete_part == "last" then
      let d := delete_last_transaction e2 user_name clk.deletedTsStr
      (PyVal.str d.1, d.2)
    else if pyStartsWith delete_part "id:" then
      let d := delete_transaction_by_id e2
        ((pyStrip (pyDrop delete_part 3)).toUpper) user_name clk.deletedTsStr
      (PyVal.str d.1, d.2)
    else if delete_part == "list" then
      (PyVal.str (reportText "YOUR RECENT TRANSACTIONS" "10"), e2)
    else (PyVal.str deletionHelpReply, e2)
  else if ["hi", "hello", "hey", "hola", "greetings"].contains text_lower then
    (PyVal.str ("Hello " ++ user_name ++
      "! 👋 Ready to manage your finances?"), e2)
  else if strIn "thank" text_lower || strIn "thanks" text_lower then
    (PyVal.str "You are welcome! 😊 Let me know if you need anything else.", e2)
  else (PyVal.str unknownCommandReply, e2)

/-! ## Shared sample data for the concrete scenarios -/

/-- A fixed wall clock for the worked scenarios: `time.time() = 1000`,
date 2026-10-12. -/
def sampleClock : Clock :=
  { now := 1000, today := ⟨2026, 10, 12⟩, todayStr := "2026-10-12"
    timeStr := "01:00 PM", dateTimeStr := "2026-10-12 13:00:00"
    deletedTsStr := "2026-10-12 01:00 PM", deliveredStr := "2026-10-12 13:00"
    thirtyDaysAgoStr := "2026-09-12", todayPlus1Str := "2026-10-13"
    todayPlus7Str := "2026-10-19", todayPlus30Str := "2026-11-11"
    monthNameStr := "October", yearStr := "2026" }

/-- An empty world with a deterministic hex-suffix supply. -/
def sampleEnv : Env :=
  { priceRanges := [], priceHistory := [], budgets := [], recurring := []
    sales := [], expenses := [], income := [], deletedTransactions := []
    archiveOk := true, orders := [], goals := [], corrections := []
    orderStates := [], randHex := fun n => "A" ++ toString n, randCtr := 0 }

/-- The trained widget row of the spec examples
(`train("widget",10,20,"ea")`). -/
def widgetRow : PriceRow :=
  { item := "widget", kind := "item", minP := 10, maxP := 20, unit := "ea"
    confidence := 85, trainedBy := "User", lastTrained := "2026-10-12"
    notes := "Trained by User" }

/-- The world after training the widget range. -/
def envTrained : Env := { sampleEnv with priceRanges := [widgetRow] }

/-! ## Helper lemmas -/

theorem dictGet_map_replace {α : Type} (d : List (String × α)) (k : String)
    (v : α) :
    dictGet (d.map (fun p => if p.1 == k then (k, v) else p)) k =
      if (d.find? (fun p => p.1 == k)).isSome then some v else none := by
  induction d with
  | nil => rfl
  | cons p t ih =>
    by_cases hk : p.1 == k
    · have h1 : (if p.1 == k then (k, v) else p) = (k, v) := by simp [hk]
      rw [List.map_cons, h1]
      have lhs : dictGet ((k, v) ::
          (t.map fun p => if p.1 == k then (k, v) else p)) k = some v := by
        unfold dictGet
        rw [List.find?_cons]
        simp
      rw [lhs, List.find?_cons]
      rw [hk]
      simp
    · have h1 : (if p.1 == k then (k, v) else p) = p := by simp [hk]
      rw [List.map_cons, h1]
      have hkb : (p.1 == k) = false := by simpa using hk
      have lhs : dictGet (p ::
          (t.map fun q => if q.1 == k then (k, v) else q)) k =
          dictGet (t.map fun q => if q.1 == k then (k, v) else q) k := by
        unfold dictGet
        rw [List.find?_cons, hkb]
      rw [lhs, List.find?_cons, hkb, ih]

theorem dictGet_append_new {α : Type} (d : List (String × α)) (k : String)
    (v : α) (h : d.find? (fun p => p.1 == k) = none) :
    dictGet (d ++ [(k, v)]) k = some v := by
  induction d with
  | nil => simp [dictGet]
  | cons p t ih =>
    rw [List.find?_cons] at h
    by_cases hk : p.1 == k
    · simp [hk] at h
    · simp only [hk] at h
      simp only [List.cons_append, dictGet, List.find?_cons, hk]
      exact ih h

theorem dictGet_dictInsert {α : Type} (d : List (String × α)) (k : String)
    (v : α) : dictGet (dictInsert d k v) k = some v := by
  unfold dictInsert
  by_cases h : (d.find? (fun p => p.1 == k)).isSome
  · simp only [h, if_true]
    rw [dictGet_map_replace, if_pos h]
  · simp only [h, if_false]
    exact dictGet_append_new d k v (Option.not_isSome_iff_eq_none.mp h)

theorem dictGet_dictRemove {α : Type} (d : List (String × α)) (k : String) :
    dictGet (dictRemove d k) k = none := by
  induction d with
  | nil => rfl
  | cons p t ih =>
    unfold dictRemove at *
    by_cases hk : p.1 == k
    · simp [List.filter_cons, hk, bne] at ih ⊢
      exact ih
    · simp [dictGet, List.filter_cons, hk, bne, List.find?_cons]

theorem foldl_pickBest_mem (l : List PriceRow) (b : PriceRow) :
    l.foldl pickBest b = b ∨ l.foldl pickBest b ∈ l := by
  induction l generalizing b with
  | nil => left; rfl
  | cons h t ih =>
    rw [List.foldl_cons]
    by_cases hc : h.confidence > b.confidence
    · have hpb : pickBest b h = h := by simp [pickBest, hc]
      rw [hpb]
      rcases ih h with h1 | h1
      · right
        rw [h1]
        exact List.mem_cons_self _ _
      · right
        exact List.mem_cons_of_mem _ h1
    · have hpb : pickBest b h = b := by simp [pickBest, hc]
      rw [hpb]
      rcases ih b with h1 | h1
      · left
        exact h1
      · right
        exact List.mem_cons_of_mem _ h1

theorem foldl_pickBest_ge_init (l : List PriceRow) (b : PriceRow) :
    b.confidence ≤ (l.foldl pickBest b).confidence := by
  induction l generalizing b with
  | nil => simp
  | cons h t ih =>
    rw [List.foldl_cons]
    calc b.confidence ≤ (pickBest b h).confidence := by
          unfold pickBest
          by_cases hc : h.confidence > b.confidence <;> (simp [hc]; try omega)
      _ ≤ (t.foldl pickBest (pickBest b h)).confidence := ih _

theorem foldl_pickBest_ge_mem (l : List PriceRow) (b x : PriceRow)
    (hx : x ∈ l) : x.confidence ≤ (l.foldl pickBest b).confidence := by
  induction l generalizing b with
  | nil => cases hx
  | cons h t ih =>
    rw [List.foldl_cons]
    rcases List.mem_cons.mp hx with rfl | hx2
    · calc x.confidence ≤ (pickBest b x).confidence := by
            unfold pickBest
            by_cases hc : x.confidence > b.confidence <;> (simp [hc]; try omega)
        _ ≤ (t.foldl pickBest (pickBest b x)).confidence :=
            foldl_pickBest_ge_init t _
    · exact ih _ hx2

theorem foldl_pickBest_const (l : List PriceRow) (b : PriceRow)
    (h : ∀ x ∈ l, x.confidence ≤ b.confidence) :
    l.foldl pickBest b = b := by
  induction l with
  | nil => rfl
  | cons hd t ih =>
    rw [List.foldl_cons]
    have hhd : hd.confidence ≤ b.confidence := h hd (List.mem_cons_self _ _)
    have hb : pickBest b hd = b := by
      unfold pickBest
      have : ¬(hd.confidence > b.confidence) := by omega
      simp [this]
    rw [hb]
    exact ih (fun x hx => h x (List.mem_cons_of_mem _ hx))

/-! ## Claim C4: anomaly evaluation is a pure classification -/

/-- C4.  Anomaly evaluation (`check_price`) is a pure classification: it
returns no-data (`None`) exactly when no trained range matches the key;
otherwise it classifies against the best (highest-confidence) match
`[min, max]`: `below` with difference `min − amount` when `amount < min`,
`above` with difference `amount − max` when the amount is not below and
exceeds `max`, and `within` otherwise; and on the worked example, amount 25
against `[10, 20]` is above by 5, amount 5 below by 5, amount 15 within. -/
theorem check_price_classification :
    (∀ rows k a, check_price rows k a = none ↔
      rows.filter (fun r => keyMatches r.item k) = []) ∧
    (∀ rows k a m,
      bestMatch (rows.filter (fun r => keyMatches r.item k)) = some m →
      (m ∈ rows.filter (fun r => keyMatches r.item k) ∧
        ∀ x ∈ rows.filter (fun r => keyMatches r.item k),
          x.confidence ≤ m.confidence) ∧
      (a < m.minP →
        check_price rows k a = some ⟨PriceStatus.below, m, m.minP - a⟩) ∧
      (¬(a < m.minP) → m.maxP < a →
        check_price rows k a = some ⟨PriceStatus.above, m, a - m.maxP⟩) ∧
      (¬(a < m.minP) → ¬(m.maxP < a) →
        check_price rows k a = some ⟨PriceStatus.within, m, 0⟩)) ∧
    (check_price [widgetRow] "widget" 25 =
        some ⟨PriceStatus.above, widgetRow, 5⟩ ∧
      check_price [widgetRow] "widget" 5 =
        some ⟨PriceStatus.below, widgetRow, 5⟩ ∧
      check_price [widgetRow] "widget" 15 =
        some ⟨PriceStatus.within, widgetRow, 0⟩) := by
  refine ⟨?_, ?_, ?_, ?_, ?_⟩
  · intro rows k a
    unfold check_price
    cases hf : rows.filter (fun r => keyMatches r.item k) with
    | nil => simp [bestMatch]
    | cons m rest =>
      simp only [bestMatch]
      constructor
      · intro h
        by_cases h1 : a < (rest.foldl pickBest m).minP
        · simp [h1] at h
        · by_cases h2 : a > (rest.foldl pickBest m).maxP <;> simp [h1, h2] at h
      · intro h
        cases h
  · intro rows k a m hb
    have hmem : m ∈ rows.filter (fun r => keyMatches r.item k) ∧
        ∀ x ∈ rows.filter (fun r => keyMatches r.item k),
          x.confidence ≤ m.confidence := by
      cases hf : rows.filter (fun r => keyMatches r.item k) with
      | nil => rw [hf] at hb; cases hb
      | cons m0 rest =>
        rw [hf] at hb
        simp only [bestMatch, Option.some_inj] at hb
        constructor
        · rcases foldl_pickBest_mem rest m0 with h1 | h1
          · rw [hb] at h1
            rw [h1]
            exact List.mem_cons_self _ _
          · rw [hb] at h1
            exact List.mem_cons_of_mem _ h1
        · intro x hx
          rcases List.mem_cons.mp hx with rfl | hx2
          · rw [← hb]
            exact foldl_pickBest_ge_init rest x
          · rw [← hb]
            exact foldl_pickBest_ge_mem rest m0 x hx2
    refine ⟨hmem, ?_, ?_, ?_⟩
    · intro h1
      unfold check_price
      rw [hb]
      simp [h1]
    · intro h1 h2
      unfold check_price
      rw [hb]
      simp [h1, h2]
    · intro h1 h2
      unfold check_price
      rw [hb]
      simp [h1, h2]
  · with_unfolding_all decide
  · with_unfolding_all decide
  · with_unfolding_all decide

/-- Closed witness for C4: the general classification applied to the widget
row at amount 25, with the hypotheses discharged by evaluation. -/
theorem check_price_classification_witness :
    check_price [widgetRow] "widget" 25 =
      some ⟨PriceStatus.above, widgetRow, 5⟩ := by
  have h := (check_price_classification.2.1 [widgetRow] "widget" 25 widgetRow
    (by with_unfolding_all decide)).2.2.1
    (by with_unfolding_all decide) (by with_unfolding_all decide)
  rw [show (25 : ℚ) - widgetRow.maxP = 5 by norm_num [widgetRow]] at h
  exact h

/-! ## Claim C1: the command processor on malformed `+train` input -/

/-- C1.  The claim states that `process_command` always returns a non-null
reply, in particular on malformed `+train` input, and that empty input
returns the guidance string.  The code violates the first part: on a
`+train` whose arguments do not parse, the branch returns the `min_price`
slot of the failure tuple — which is None — instead of the error message
(engine.py:3211-3213), so the processor returns Python None.  Empty input
does return the guidance string. -/
theorem process_command_train_none :
    (process_command envTrained sampleClock "+train" "User").1 = PyVal.none ∧
    (process_command envTrained sampleClock "+train \"widget\" 10" "User").1 =
      PyVal.none ∧
    (process_command envTrained sampleClock "" "User").1 =
      PyVal.str emptyInputReply := by
  refine ⟨?_, ?_, ?_⟩
  · set_option maxRecDepth 4000 in with_unfolding_all decide
  · set_option maxRecDepth 4000 in with_unfolding_all decide
  · set_option maxRecDepth 4000 in rfl

/-! ## Claim C7: deletion archives before removing — but only best-effort -/

/-- A stored sale used by the deletion scenarios. -/
def c7Tx : TxRow :=
  { id := "SAL-XYZ123", date := "2026-10-10", type_ := "sale", amount := 100
    description := "poster print", category := "", user := "User"
    timestamp := "09:00 AM" }

/-- A world where the archival append to DeletedTransactions fails. -/
def c7Env : Env := { sampleEnv with sales := [c7Tx], archiveOk := false }

/-- The same world with a working archive. -/
def c7EnvOk : Env := { c7Env with archiveOk := true }

/-- The transaction dict `find_transaction_by_id` produces for `c7Tx`. -/
def c7Found : Tx :=
  { id := "SAL-XYZ123", date := "2026-10-10", type_ := "sale", amount := 100
    description := "poster print", user := "User", category := ""
    sheet := "Sales" }

/-- Counterexample to C7 as stated: when the archival write fails
(`archive_deleted_transaction` swallows the exception — engine.py:2313-2314,
`pass  # Archive is optional`), `delete_transaction_by_id` still reports
success and hard-deletes the row, and nothing is archived. -/
theorem delete_without_archive_counterexample :
    (delete_transaction_by_id c7Env "SAL-XYZ123" "User"
        "2026-10-12 01:00 PM").1 =
      "✅ Deleted transaction SAL-XYZ123 (₵100)" ∧
    (delete_transaction_by_id c7Env "SAL-XYZ123" "User"
        "2026-10-12 01:00 PM").2.sales = [] ∧
    (delete_transaction_by_id c7Env "SAL-XYZ123" "User"
        "2026-10-12 01:00 PM").2.deletedTransactions = [] := by
  refine ⟨?_, ?_, ?_⟩ <;>
    (set_option maxRecDepth 100000 in with_unfolding_all decide)

theorem sheetRows_setSheetRows (e : Env) (s : String) (rows : List TxRow) :
    sheetRows (setSheetRows e s rows) s =
      if s == "Sales" || s == "Expenses" || s == "Income" then rows
      else sheetRows e s := by
  unfold sheetRows setSheetRows
  by_cases h1 : s == "Sales"
  · simp [h1]
  · by_cases h2 : s == "Expenses"
    · simp [h1, h2]
    · by_cases h3 : s == "Income"
      · simp [h1, h2, h3]
      · simp [h1, h2, h3]

/-- C7 amended.  Every deletion by id attempts the archival append before
removing the row: when the archive write succeeds the record is in
DeletedTransactions and the row is removed; when the archive write fails,
the failure is swallowed and the row is removed anyway (archival is
best-effort, not a precondition of deletion). -/
theorem delete_archival_best_effort :
    ∀ (e : Env) (tid user ts : String) (t : Tx),
      find_transaction_by_id e tid user = some t →
      ((sheetRows e t.sheet).find? (fun r => pyStrip r.id == tid)).isSome →
      (delete_transaction_by_id e tid user ts).2.deletedTransactions =
        (if e.archiveOk then e.deletedTransactions ++
          [{ id := t.id, date := t.date, type_ := t.type_, amount := t.amount
             description := t.description, category := t.category
             user := t.user, originalSheet := t.sheet, deletedTimestamp := ts
             reason := "Deleted by " ++ user ++ " via ID" }]
         else e.deletedTransactions) ∧
      sheetRows (delete_transaction_by_id e tid user ts).2 t.sheet =
        (if t.sheet == "Sales" || t.sheet == "Expenses" ||
            t.sheet == "Income" then
          removeFirst (fun r => pyStrip r.id == tid) (sheetRows e t.sheet)
         else sheetRows e t.sheet) ∧
      (delete_transaction_by_id e tid user ts).1 =
        "✅ Deleted transaction " ++ tid ++ " (" ++ format_cedi t.amount ++
          ")" := by
  intro e tid user ts t hfind hrow
  unfold delete_transaction_by_id
  rw [hfind]
  simp only [hrow, if_true]
  have harch : ∀ (env : Env) sheet rows,
      sheetRows (setSheetRows env sheet rows) sheet =
        if sheet == "Sales" || sheet == "Expenses" || sheet == "Income" then
          rows
        else sheetRows env sheet := sheetRows_setSheetRows
  have harchRows : ∀ (env : Env) sheet rows,
      (setSheetRows env sheet rows).deletedTransactions =
        env.deletedTransactions := by
    intro env sheet rows
    unfold setSheetRows
    by_cases h1 : sheet == "Sales"
    · simp [h1]
    · by_cases h2 : sheet == "Expenses"
      · simp [h1, h2]
      · by_cases h3 : sheet == "Income"
        · simp [h1, h2, h3]
        · simp [h1, h2, h3]
  have harchSheets : ∀ (env : Env) (t2 : Tx) dby dts sheet,
      sheetRows (archive_deleted_transaction env t2 dby dts) sheet =
        sheetRows env sheet := by
    intro env t2 dby dts sheet
    unfold archive_deleted_transaction sheetRows
    by_cases h : env.archiveOk <;> simp [h]
  refine ⟨?_, ?_, trivial⟩
  · rw [harchRows]
    unfold archive_deleted_transaction
    by_cases h : e.archiveOk <;> simp [h]
  · rw [harch, harchSheets]

/-- Closed witness for the amended C7: on the archive-working world the
deleted sale lands in DeletedTransactions. -/
theorem delete_archival_best_effort_witness :
    (delete_transaction_by_id c7EnvOk "SAL-XYZ123" "User"
        "2026-10-12 01:00 PM").2.deletedTransactions =
      [{ id := "SAL-XYZ123", date := "2026-10-10", type_ := "sale"
         amount := 100, description := "poster print", category := ""
         user := "User", originalSheet := "Sales"
         deletedTimestamp := "2026-10-12 01:00 PM"
         reason := "Deleted by User via ID" }] := by
  have h := (delete_archival_best_effort c7EnvOk "SAL-XYZ123" "User"
    "2026-10-12 01:00 PM" c7Found
    (by set_option maxRecDepth 100000 in with_unfolding_all decide)
    (by set_option maxRecDepth 100000 in with_unfolding_all decide)).1
  rw [h]
  set_option maxRecDepth 100000 in with_unfolding_all decide

/-! ## Claim C8: the recurring due calculation -/

theorem isDue_iff (today : Date) (f : String) (last : LastRec) :
    isDue today f last = true ↔
      (last = LastRec.never ∨ ∃ d, last = LastRec.onDate d ∧
        ((f = "daily" ∧ d.toOrd < today.toOrd) ∨
         (f = "weekly" ∧ d.toOrd + 7 ≤ today.toOrd) ∨
         (f = "monthly" ∧ (today.month ≠ d.month ∨ today.year ≠ d.year) ∧
           (d.day ≤ today.day ∨ (28 ≤ today.day ∧ 28 ≤ d.day))))) := by
  cases last with
  | never => simp [isDue]
  | onDate d =>
    simp only [isDue]
    by_cases h1 : f == "daily"
    · have hf : f = "daily" := by simpa using h1
      subst hf
      simp [decide_eq_true_eq]
    · have hf1 : ¬(f = "daily") := by simpa using h1
      by_cases h2 : f == "weekly"
      · have hf : f = "weekly" := by simpa using h2
        subst hf
        simp [decide_eq_true_eq]
      · have hf2 : ¬(f = "weekly") := by simpa using h2
        by_cases h3 : f == "monthly"
        · have hf : f = "monthly" := by simpa using h3
          subst hf
          simp only [h1, h2, if_false, if_true, beq_self_eq_true]
          constructor
          · intro h
            right
            refine ⟨d, rfl, Or.inr (Or.inr ⟨by first | rfl | trivial, ?_, ?_⟩)⟩
            · rcases Bool.and_eq_true_iff.mp h with ⟨ha, _⟩
              rcases Bool.or_eq_true_iff.mp ha with hm | hy
              · left
                simpa using hm
              · right
                simpa using hy
            · rcases Bool.and_eq_true_iff.mp h with ⟨_, hb⟩
              rcases Bool.or_eq_true_iff.mp hb with hd | hq
              · left
                simpa using hd
              · right
                rcases Bool.and_eq_true_iff.mp hq with ⟨hq1, hq2⟩
                exact ⟨by simpa using hq1, by simpa using hq2⟩
          · rintro (h | ⟨d2, hd2, h⟩)
            · cases h
            · cases hd2
              rcases h with ⟨hc, _⟩ | h
              · exact absurd hc hf1
              rcases h with ⟨hc, _⟩ | h
              · exact absurd hc hf2
              rcases h with ⟨_, hmy, hday⟩
              refine Bool.and_eq_true_iff.mpr ⟨?_, ?_⟩
              · rcases hmy with hm | hy
                · exact Bool.or_eq_true_iff.mpr (Or.inl (by simpa using hm))
                · exact Bool.or_eq_true_iff.mpr (Or.inr (by simpa using hy))
              · rcases hday with hd2 | ⟨ht, hl⟩
                · exact Bool.or_eq_true_iff.mpr (Or.inl (by simpa using hd2))
                · exact Bool.or_eq_true_iff.mpr (Or.inr
                    (Bool.and_eq_true_iff.mpr ⟨by simpa using ht,
                      by simpa using hl⟩))
        · have hf3 : ¬(f = "monthly") := by simpa using h3
          simp [h1, h2, h3, hf1, hf2, hf3]

/-- The spec examples: a daily template last recorded yesterday, and a
monthly template last recorded on day 31. -/
def dailyRow : RecRow :=
  { type_ := "expense", amount := 50, desc := "coffee", freq := "daily"
    lastRecorded := LastRec.onDate ⟨2026, 10, 11⟩, user := "User"
    status := "Active" }

def monthlyRow : RecRow :=
  { type_ := "expense", amount := 200, desc := "rent", freq := "monthly"
    lastRecorded := LastRec.onDate ⟨2026, 1, 31⟩, user := "User"
    status := "Active" }

/-- C8.  The due calculation of `check_recurring_due` selects exactly the
requesting user's active templates for which: `Last_Recorded` is "Never"; or
the frequency is daily and today is strictly after the recorded day; or
weekly and at least 7 days have passed; or monthly and the month or year
differs and either the recorded day-of-month is reached or both days are at
least 28 (the day-28 fallback).  On the examples: a daily template last
recorded 2026-10-11 is due on 2026-10-12; a monthly template last recorded
on day 31 (2026-01-31) is due on 2026-02-28 via the fallback and not yet on
2026-02-27. -/
theorem recurring_due_characterization :
    (∀ (rows : List RecRow) (user : String) (today : Date) (r : RecRow),
      r ∈ check_recurring_due_items rows user today ↔
        (r ∈ rows ∧ r.user = user ∧ pyLower r.status = "active" ∧
          (r.lastRecorded = LastRec.never ∨
            ∃ d, r.lastRecorded = LastRec.onDate d ∧
              ((pyLower r.freq = "daily" ∧ d.toOrd < today.toOrd) ∨
               (pyLower r.freq = "weekly" ∧ d.toOrd + 7 ≤ today.toOrd) ∨
               (pyLower r.freq = "monthly" ∧
                 (today.month ≠ d.month ∨ today.year ≠ d.year) ∧
                 (d.day ≤ today.day ∨ (28 ≤ today.day ∧ 28 ≤ d.day))))))) ∧
    check_recurring_due_items [dailyRow] "User" ⟨2026, 10, 12⟩ = [dailyRow] ∧
    check_recurring_due_items [dailyRow] "User" ⟨2026, 10, 11⟩ = [] ∧
    check_recurring_due_items [monthlyRow] "User" ⟨2026, 2, 28⟩ =
      [monthlyRow] ∧
    check_recurring_due_items [monthlyRow] "User" ⟨2026, 2, 27⟩ = [] := by
  refine ⟨?_, ?_, ?_, ?_, ?_⟩
  · intro rows user today r
    rw [check_recurring_due_items, List.mem_filter]
    simp only [Bool.and_eq_true, beq_iff_eq, isDue_iff, and_assoc]
  · set_option maxRecDepth 10000 in with_unfolding_all decide
  · set_option maxRecDepth 10000 in with_unfolding_all decide
  · set_option maxRecDepth 10000 in with_unfolding_all decide
  · set_option maxRecDepth 10000 in with_unfolding_all decide

/-! ## Claim C9: budget spend recording and threshold alerting -/

theorem update_budget_no_match (key : String) (amount : ℚ) (user : String) :
    ∀ (rows : List BudgetRow),
      rows.filter (fun r => budgetMatches r key user) = [] →
      update_budget_spending key amount user rows = (none, rows) := by
  intro rows
  induction rows with
  | nil => intro _; rfl
  | cons r rest ih =>
    intro h
    rw [List.filter_cons] at h
    by_cases hm : budgetMatches r key user
    · simp [hm] at h
    · simp only [hm, if_false, Bool.false_eq_true] at h
      unfold update_budget_spending
      rw [if_neg (by simpa using hm)]
      rw [ih h]

theorem update_budget_single_match :
    ∀ (rows : List BudgetRow) (b : BudgetRow) (key : String) (amount : ℚ)
      (user : String),
      rows.filter (fun r => budgetMatches r key user) = [b] →
      0 < b.amount →
      (update_budget_spending key amount user rows).2.filter
          (fun r => budgetMatches r key user) =
        [{ b with spent := b.spent + amount
                  remaining := b.amount - (b.spent + amount) }] ∧
      (update_budget_spending key amount user rows).2.filter
          (fun r => !(budgetMatches r key user)) =
        rows.filter (fun r => !(budgetMatches r key user)) ∧
      ((update_budget_spending key amount user rows).1.isSome ↔
        (b.alertAt : ℚ) ≤ (b.spent + amount) / b.amount * 100) ∧
      (update_budget_spending key amount user rows).1 =
        (if (b.alertAt : ℚ) ≤ (b.spent + amount) / b.amount * 100 then
          some { category_item := key, budget_amount := b.amount
                 spent := b.spent + amount
                 remaining := b.amount - (b.spent + amount)
                 percent_spent := (b.spent + amount) / b.amount * 100
                 alert_threshold := b.alertAt }
         else none) := by
  intro rows
  induction rows with
  | nil =>
    intro b key amount user h
    simp at h
  | cons r rest ih =>
    intro b key amount user h hpos
    rw [List.filter_cons] at h
    by_cases hm : budgetMatches r key user
    · simp only [hm, if_true, List.cons.injEq] at h
      obtain ⟨rfl, hrest⟩ := h
      have hupd : budgetMatches { r with spent := r.spent + amount, remaining := r.amount - (r.spent + amount) } key user = true := hm
      unfold update_budget_spending
      rw [if_pos hm]
      simp only [if_pos hpos]
      by_cases halert : (r.alertAt : ℚ) ≤ (r.spent + amount) / r.amount * 100
      · rw [if_pos halert]
        refine ⟨?_, ?_, ?_, ?_⟩
        · rw [List.filter_cons, if_pos hupd, hrest]
        · rw [List.filter_cons, List.filter_cons]
          simp [hm, hupd]
        · simp [halert]
        · simp [halert]
      · rw [if_neg halert]
        have hrest2 := update_budget_no_match key amount user rest hrest
        refine ⟨?_, ?_, ?_, ?_⟩
        · simp only [hrest2, List.filter_cons, if_pos hupd, hrest]
        · simp only [hrest2, List.filter_cons]
          simp [hm, hupd]
        · simp [hrest2, halert]
        · simp [hrest2, halert]
    · simp only [hm, if_false, Bool.false_eq_true] at h
      unfold update_budget_spending
      rw [if_neg (by simpa using hm)]
      have ihr := ih b key amount user h hpos
      refine ⟨?_, ?_, ?_, ?_⟩
      · rw [List.filter_cons]
        simp only [hm, if_false, Bool.false_eq_true]
        exact ihr.1
      · rw [List.filter_cons, List.filter_cons]
        simp only [hm, Bool.not_false, if_true, Bool.false_eq_true, if_false]
        rw [ihr.2.1]
      · exact ihr.2.2.1
      · exact ihr.2.2.2

/-- The example budget: 1000 monthly for #marketing, threshold 80, spent
700. -/
def b700 : BudgetRow :=
  { item := "#marketing", kind := "category", amount := 1000
    period := "monthly", spent := 700, remaining := 300
    startDate := "2026-10-01", endDate := "2026-10-31", user := "User"
    alertAt := 80, status := "active", notes := "" }

/-- C9.  With exactly one active budget row matching the key and user,
recording a spend adds the amount to `Current_Spent`, recomputes
`Remaining = Budget − Spent`, leaves every other row unchanged, and returns
an alert exactly when the new spent percentage reaches the row's threshold —
on every call, with no edge-triggering state.  On the worked example (budget
1000, threshold 80): spending 50 (700 to 750) gives no alert; then 100
(750 to 850) gives one; a further 10 while still above the threshold alerts
again. -/
theorem budget_spend_alerting :
    (∀ (rows : List BudgetRow) (b : BudgetRow) (key : String) (amount : ℚ)
      (user : String),
      rows.filter (fun r => budgetMatches r key user) = [b] →
      0 < b.amount →
      (update_budget_spending key amount user rows).2.filter
          (fun r => budgetMatches r key user) =
        [{ b with spent := b.spent + amount
                  remaining := b.amount - (b.spent + amount) }] ∧
      (update_budget_spending key amount user rows).2.filter
          (fun r => !(budgetMatches r key user)) =
        rows.filter (fun r => !(budgetMatches r key user)) ∧
      ((update_budget_spending key amount user rows).1.isSome ↔
        (b.alertAt : ℚ) ≤ (b.spent + amount) / b.amount * 100) ∧
      (update_budget_spending key amount user rows).1 =
        (if (b.alertAt : ℚ) ≤ (b.spent + amount) / b.amount * 100 then
          some { category_item := key, budget_amount := b.amount
                 spent := b.spent + amount
                 remaining := b.amount - (b.spent + amount)
                 percent_spent := (b.spent + amount) / b.amount * 100
                 alert_threshold := b.alertAt }
         else none)) ∧
    (update_budget_spending "#marketing" 50 "User" [b700]).1 = none ∧
    (update_budget_spending "#marketing" 50 "User" [b700]).2 =
      [{ b700 with spent := 750, remaining := 250 }] ∧
    (update_budget_spending "#marketing" 100 "User"
      [{ b700 with spent := 750, remaining := 250 }]).1 =
      some { category_item := "#marketing", budget_amount := 1000
             spent := 850, remaining := 150, percent_spent := 85
             alert_threshold := 80 } ∧
    (update_budget_spending "#marketing" 10 "User"
      [{ b700 with spent := 850, remaining := 150 }]).1.isSome = true := by
  refine ⟨update_budget_single_match, ?_, ?_, ?_, ?_⟩ <;>
    (set_option maxRecDepth 100000 in with_unfolding_all decide)

/-- Closed witness for C9: the claim theorem applied to the 750-spent
budget with a 100 spend, alerting at 85 percent. -/
theorem budget_spend_alerting_witness :
    (update_budget_spending "#marketing" 100 "User"
      [{ b700 with spent := 750, remaining := 250 }]).1.isSome = true := by
  have h := (budget_spend_alerting.1
    [{ b700 with spent := 750, remaining := 250 }]
    { b700 with spent := 750, remaining := 250 } "#marketing" 100 "User"
    (by set_option maxRecDepth 10000 in with_unfolding_all decide)
    (by norm_num [b700])).2.2.1
  rw [h]
  norm_num [b700]

/-! ## Claim C6: train / lookup / forget round-trip -/

theorem trainUpsert_filter (T : PriceRow) (item : String)
    (hT : keyMatches T.item item = true) :
    ∀ (rows rows2 : List PriceRow), trainUpsert T item rows = some rows2 →
      ∃ rest : List PriceRow,
        rows2.filter (fun r => keyMatches r.item item) =
          T :: rest.filter (fun r => keyMatches r.item item) ∧
        ∀ x ∈ rest, x ∈ rows := by
  intro rows
  induction rows with
  | nil =>
    intro rows2 h
    cases h
  | cons r t ih =>
    intro rows2 h
    unfold trainUpsert at h
    by_cases hm : keyMatches r.item item
    · rw [if_pos hm] at h
      cases h
      refine ⟨t, ?_, fun x hx => List.mem_cons_of_mem _ hx⟩
      rw [List.filter_cons, if_pos hT]
    · rw [if_neg (by simpa using hm)] at h
      cases hu : trainUpsert T item t with
      | none => rw [hu] at h; cases h
      | some rs =>
        rw [hu] at h
        have h2 : some (r :: rs) = some rows2 := h
        obtain rfl := Option.some.inj h2
        obtain ⟨rest, hfil, hsub⟩ := ih rs hu
        refine ⟨rest, ?_, fun x hx => List.mem_cons_of_mem _ (hsub x hx)⟩
        rw [List.filter_cons, if_neg (by simpa using hm), hfil]

theorem trainUpsert_none (T : PriceRow) (item : String) :
    ∀ rows : List PriceRow, trainUpsert T item rows = none →
      rows.filter (fun r => keyMatches r.item item) = [] := by
  intro rows
  induction rows with
  | nil => intro _; rfl
  | cons r rest ih =>
    intro h
    unfold trainUpsert at h
    by_cases hm : keyMatches r.item item
    · rw [if_pos hm] at h
      cases h
    · rw [if_neg (by simpa using hm)] at h
      rw [List.filter_cons, if_neg (by simpa using hm)]
      cases hu : trainUpsert T item rest with
      | none => exact ih hu
      | some rs => rw [hu] at h; cases h

theorem filter_of_length_eq (q : PriceRow → Bool) :
    ∀ l : List PriceRow, (l.filter q).length = l.length → l.filter q = l := by
  intro l
  induction l with
  | nil => intro _; rfl
  | cons h t ih =>
    rw [List.filter_cons]
    by_cases hq : q h
    · simp only [hq, if_true, List.length_cons]
      intro hlen
      rw [ih (by omega)]
    · simp only [hq, Bool.false_eq_true, if_false, List.length_cons]
      intro hlen
      have := List.length_filter_le q t
      omega

theorem train_price_snd_some (rows rows2 : List PriceRow) (item : String)
    (mn mx : ℚ) (unit u d : String)
    (h : trainUpsert (mkTrained item mn mx unit u d) item rows = some rows2) :
    (train_price rows item mn mx unit u d).2 = rows2 := by
  simp [train_price, h]

theorem train_price_snd_none (rows : List PriceRow) (item : String)
    (mn mx : ℚ) (unit u d : String)
    (h : trainUpsert (mkTrained item mn mx unit u d) item rows = none) :
    (train_price rows item mn mx unit u d).2 =
      rows ++ [mkTrained item mn mx unit u d] := by
  simp [train_price, h]

/-- C6.  Train / lookup / forget round-trip: after training
`("widget", 10, 20, "ea")` over any sheet whose widget rows do not outrank
the fresh confidence 85, a lookup returns range `[10, 20]` with unit `"ea"`;
after a forget of any key, a lookup of that key returns no data; forget
removes every case-insensitively matching row, and reports not-found (with
the sheet unchanged) exactly when no row matches; the concrete round-trip on
an empty sheet produces exactly the widget row and then removes it. -/
theorem train_forget_roundtrip :
    (∀ (rows : List PriceRow) (u d : String),
      (∀ r ∈ rows, keyMatches r.item "widget" = true → r.confidence ≤ 85) →
      ∃ pc, check_price (train_price rows "widget" 10 20 "ea" u d).2
          "widget" 0 = some pc ∧
        pc.range.minP = 10 ∧ pc.range.maxP = 20 ∧ pc.range.unit = "ea") ∧
    (∀ (rows : List PriceRow) (k : String) (a : ℚ),
      check_price (forget_price rows k).2 k a = none) ∧
    (∀ (rows : List PriceRow) (k : String) (r : PriceRow),
      r ∈ (forget_price rows k).2 → keyMatches r.item k = false) ∧
    (∀ (rows : List PriceRow) (k : String),
      rows.filter (fun r => keyMatches r.item k) = [] →
      forget_price rows k = ("❌ No price training found for " ++ k, rows)) ∧
    (train_price [] "widget" 10 20 "ea" "User" "2026-10-12").2 =
      [widgetRow] ∧
    (forget_price [widgetRow] "widget").2 = [] := by
  refine ⟨?_, ?_, ?_, ?_, ?_, ?_⟩
  · intro rows u d hconf
    have hT : keyMatches (mkTrained "widget" 10 20 "ea" u d).item "widget" =
        true := by
      show keyMatches (pyStrip "widget") "widget" = true
      decide
    cases hu : trainUpsert (mkTrained "widget" 10 20 "ea" u d) "widget" rows
      with
    | none =>
      rw [train_price_snd_none _ _ _ _ _ _ _ hu]
      have hfil : (rows ++ [mkTrained "widget" 10 20 "ea" u d]).filter
          (fun r => keyMatches r.item "widget") =
          [mkTrained "widget" 10 20 "ea" u d] := by
        rw [List.filter_append, trainUpsert_none _ _ _ hu]
        simp [hT]
      unfold check_price
      rw [hfil]
      simp only [bestMatch, List.foldl_nil]
      refine ⟨_, if_pos ?_, rfl, rfl, rfl⟩
      show (0 : ℚ) < 10
      norm_num
    | some rows2 =>
      rw [train_price_snd_some _ _ _ _ _ _ _ _ hu]
      obtain ⟨rest, hfil, hsub⟩ :=
        trainUpsert_filter (mkTrained "widget" 10 20 "ea" u d) "widget" hT
          rows rows2 hu
      have hbest :
          bestMatch (rows2.filter (fun r => keyMatches r.item "widget")) =
            some (mkTrained "widget" 10 20 "ea" u d) := by
        rw [hfil]
        simp only [bestMatch, Option.some_inj]
        apply foldl_pickBest_const
        intro x hx
        have hx2 := List.mem_filter.mp hx
        exact hconf x (hsub x hx2.1) hx2.2
      unfold check_price
      rw [hbest]
      refine ⟨_, if_pos ?_, rfl, rfl, rfl⟩
      show (0 : ℚ) < 10
      norm_num
  · intro rows k a
    unfold forget_price
    by_cases hlen : ((rows.filter (fun r => !(keyMatches r.item k))).length ==
        rows.length)
    · rw [if_pos hlen]
      have hall := filter_of_length_eq (fun r => !(keyMatches r.item k)) rows (by rwa [beq_iff_eq] at hlen)
      have hfil : rows.filter (fun r => keyMatches r.item k) = [] := by
        rw [List.filter_eq_nil_iff]
        intro r hr
        have : r ∈ rows.filter (fun r => !(keyMatches r.item k)) := by
          rw [hall]; exact hr
        have := (List.mem_filter.mp this).2
        simpa using this
      unfold check_price
      rw [hfil]
      rfl
    · rw [if_neg hlen]
      have hfil : (rows.filter (fun r => !(keyMatches r.item k))).filter
          (fun r => keyMatches r.item k) = [] := by
        rw [List.filter_eq_nil_iff]
        intro r hr
        have := (List.mem_filter.mp hr).2
        simpa using this
      unfold check_price
      rw [hfil]
      rfl
  · intro rows k r hr
    unfold forget_price at hr
    by_cases hlen : ((rows.filter (fun r => !(keyMatches r.item k))).length ==
        rows.length)
    · rw [if_pos hlen] at hr
      have hall := filter_of_length_eq (fun r => !(keyMatches r.item k)) rows (by rwa [beq_iff_eq] at hlen)
      have : r ∈ rows.filter (fun r => !(keyMatches r.item k)) := by
        rw [hall]; exact hr
      simpa using (List.mem_filter.mp this).2
    · rw [if_neg hlen] at hr
      simpa using (List.mem_filter.mp hr).2
  · intro rows k hfil
    unfold forget_price
    have hall : rows.filter (fun r => !(keyMatches r.item k)) = rows := by
      rw [List.filter_eq_self]
      intro r hr
      by_contra hc
      have : r ∈ rows.filter (fun r => keyMatches r.item k) := by
        rw [List.mem_filter]
        exact ⟨hr, by simpa using hc⟩
      rw [hfil] at this
      cases this
    rw [hall]
    simp
  · with_unfolding_all decide
  · with_unfolding_all decide

/-- Closed witness for C6: the general train-then-lookup part applied to the
empty sheet. -/
theorem train_forget_roundtrip_witness :
    ∃ pc, check_price (train_price [] "widget" 10 20 "ea" "User"
        "2026-10-12").2 "widget" 0 = some pc ∧
      pc.range.minP = 10 ∧ pc.range.maxP = 20 ∧ pc.range.unit = "ea" :=
  train_forget_roundtrip.1 [] "User" "2026-10-12" (by intro r hr; cases hr)

/-! ## Claim C2: a correction session resolves exactly once -/

theorem dictGet_dictRemove_ne {α : Type} (d : List (String × α))
    (kr kq : String) (h : kq ≠ kr) :
    dictGet (dictRemove d kr) kq = dictGet d kq := by
  induction d with
  | nil => rfl
  | cons p t ih =>
    by_cases hk : p.1 = kr
    · have h1 : dictRemove (p :: t) kr = dictRemove t kr := by
        unfold dictRemove
        rw [List.filter_cons, if_neg (by simp [hk])]
      have h2 : dictGet (p :: t) kq = dictGet t kq := by
        unfold dictGet
        rw [List.find?_cons,
          show (p.1 == kq) = false by simp [hk, Ne.symm h]]
      rw [h1, h2, ih]
    · have h1 : dictRemove (p :: t) kr = p :: dictRemove t kr := by
        unfold dictRemove
        rw [List.filter_cons, if_pos (by simp [hk])]
      rw [h1]
      by_cases hq : p.1 = kq
      · unfold dictGet
        rw [List.find?_cons, show (p.1 == kq) = true by simp [hq],
          List.find?_cons, show (p.1 == kq) = true by simp [hq]]
      · unfold dictGet at ih ⊢
        rw [List.find?_cons, show (p.1 == kq) = false by simp [hq],
          List.find?_cons, show (p.1 == kq) = false by simp [hq]]
        exact ih

theorem handle_correction_no_active (states : CorrStates)
    (rows : List PriceRow) (user_input user_name : String) (now : ℚ)
    (todayStr : String)
    (h : activeSessions states user_name now = []) :
    handle_correction_response states rows user_input user_name now
      todayStr = (none, states, rows) := by
  unfold handle_correction_response
  by_cases hn : (parseChoices user_input).isEmpty
  · simp [hn]
  · simp [hn, h]

theorem activeSessions_after_removals (states : CorrStates)
    (user_name tid sid : String) (now : ℚ) (t : TransCorr)
    (hact : activeSessions states user_name now =
      [(tid, CorrEntry.trans t)]) :
    activeSessions (dictRemove (dictRemove states tid) sid) user_name now
      = [] := by
  unfold activeSessions dictRemove
  rw [List.filter_eq_nil_iff]
  intro p hp
  have hp1 := List.mem_filter.mp hp
  have hp2 := List.mem_filter.mp hp1.1
  have hmem : p ∈ states := hp2.1
  have hnet : (p.1 != tid) = true := hp2.2
  intro hpred
  have hin : p ∈ activeSessions states user_name now := by
    unfold activeSessions
    exact List.mem_filter.mpr ⟨hmem, hpred⟩
  rw [hact] at hin
  have hpeq : p = (tid, CorrEntry.trans t) := by simpa using hin
  rw [hpeq] at hnet
  simp at hnet

/-- C2.  A correction session resolves exactly once: with one open session
of the user holding one still-unexpired pending request, a reply choosing
option 5 is applied (the noted-response is returned), the price sheet is
unchanged, and both the session entry and the request entry are deleted, so
any later reply — numeric or not — finds no active session and the handler
returns `None` with the states unchanged.  At the processor level: after
`+expense 25 widget` on the trained world, the first reply `5` produces the
noted-response and the second identical reply falls through to the
unrecognized-command text. -/
theorem correction_resolves_once (states : CorrStates) (rows : List PriceRow)
    (user_input user_name : String) (now : ℚ) (todayStr : String)
    (tid sid : String) (t : TransCorr) (c : ItemCorr)
    (hact : activeSessions states user_name now =
      [(tid, CorrEntry.trans t)])
    (hids : t.state_ids = [sid])
    (hget : dictGet states sid = some (CorrEntry.item c))
    (hfresh : now < c.expires_at)
    (hnum : parseChoices user_input = [5])
    (hne : sid ≠ tid) :
    (handle_correction_response states rows user_input user_name now
        todayStr) =
      (some ("✅ Noted: " ++ c.item ++ " at " ++ format_cedi c.amount ++
          " is correct (ignoring warning)"),
        dictRemove (dictRemove states tid) sid, rows) ∧
    dictGet (dictRemove (dictRemove states tid) sid) tid = none ∧
    dictGet (dictRemove (dictRemove states tid) sid) sid = none ∧
    (∀ (rows2 : List PriceRow) (input2 : String),
      handle_correction_response (dictRemove (dictRemove states tid) sid)
          rows2 input2 user_name now todayStr =
        (none, dictRemove (dictRemove states tid) sid, rows2)) ∧
    (process_command
        (process_command envTrained sampleClock "+expense 25 widget"
          "User").2 sampleClock "5" "User").1 =
      PyVal.str ("✅ Noted: widget at " ++ format_cedi 25 ++
        " is correct (ignoring warning)") ∧
    (process_command
        (process_command
          (process_command envTrained sampleClock "+expense 25 widget"
            "User").2 sampleClock "5" "User").2 sampleClock "5" "User").1 =
      PyVal.str unknownCommandReply := by
  refine ⟨?_, ?_, ?_, ?_, ?_, ?_⟩
  · unfold handle_correction_response
    rw [hnum]
    simp [hact, hids, hget, hfresh, correctionStep, get_correction,
      applyChoice, CorrEntry.expiresAt, pyIntercalate]
  · rw [dictGet_dictRemove_ne _ sid tid (Ne.symm hne)]
    exact dictGet_dictRemove _ tid
  · exact dictGet_dictRemove _ sid
  · intro rows2 input2
    exact handle_correction_no_active _ _ _ _ _ _
      (activeSessions_after_removals states user_name tid sid now t hact)
  · set_option maxRecDepth 4000 in with_unfolding_all rfl
  · set_option maxRecDepth 4000 in with_unfolding_all rfl

/-- The two-entry correction dict after one anomalous expense: the pending
item request and its session entry, both created at 1000 with a 300-second
TTL. -/
def c2Item : ItemCorr :=
  { user_id := "User", transaction_id := "EXP-A0", item := "widget"
    amount := 25, min_price := 10, max_price := 20, sheet_name := "Expenses"
    rowType := "expense", rowDesc := "widget", rowCat := "", rowUser := "User"
    timestamp := 1000, expires_at := 1300 }

def c2Trans : TransCorr :=
  { state_ids := ["User_1000"], user_id := "User", timestamp := 1000
    expires_at := 1300 }

def c2States : CorrStates :=
  [("User_1000", CorrEntry.item c2Item), ("EXP-A0", CorrEntry.trans c2Trans)]

/-- Closed witness for C2: on the concrete two-entry dict, the reply `5`
resolves the session, and the same reply afterwards applies to nothing. -/
theorem correction_resolves_once_witness :
    handle_correction_response c2States [] "5" "User" 1000 "2026-10-12" =
      (some ("✅ Noted: widget at " ++ format_cedi 25 ++
          " is correct (ignoring warning)"),
        dictRemove (dictRemove c2States "EXP-A0") "User_1000", []) ∧
    handle_correction_response
        (dictRemove (dictRemove c2States "EXP-A0") "User_1000") [] "5"
        "User" 1000 "2026-10-12" =
      (none, dictRemove (dictRemove c2States "EXP-A0") "User_1000", []) := by
  have h := correction_resolves_once c2States [] "5" "User" 1000 "2026-10-12"
    "EXP-A0" "User_1000" c2Trans c2Item
    (by set_option maxRecDepth 4000 in with_unfolding_all decide)
    rfl
    rfl
    (by norm_num [c2Item])
    (by set_option maxRecDepth 4000 in with_unfolding_all decide)
    (by decide)
  exact ⟨h.1, h.2.2.2.1 [] "5"⟩

/-! ## Claim C3: lazy TTL expiry of correction sessions -/

theorem dictGet_corrCleanup (d : CorrStates) (k : String) (v : CorrEntry)
    (t : ℚ) (hget : dictGet d k = some v) (hv : ¬(t > v.expiresAt)) :
    dictGet (corrCleanup d t) k = some v := by
  induction d with
  | nil => cases hget
  | cons p rest ih =>
    unfold corrCleanup at ih ⊢
    rw [List.filter_cons]
    by_cases hk : p.1 == k
    · have hpv : p.2 = v := by
        unfold dictGet at hget
        rw [List.find?_cons, hk] at hget
        simpa using hget
      rw [if_pos (by simp [hpv, hv])]
      unfold dictGet
      rw [List.find?_cons, hk]
      simp [hpv]
    · have hrest : dictGet rest k = some v := by
        unfold dictGet at hget ⊢
        rwa [List.find?_cons, show (p.1 == k) = false by simpa using hk]
          at hget
      by_cases hq : (!(decide (t > p.2.expiresAt))) = true
      · rw [if_pos hq]
        unfold dictGet
        rw [List.find?_cons, show (p.1 == k) = false by simpa using hk]
        exact ih hrest
      · rw [if_neg hq]
        exact ih hrest

theorem get_correction_stale (sts : CorrStates) (sid : String)
    (v : CorrEntry) (t : ℚ) (hget : dictGet sts sid = some v)
    (hexp : ¬(t < v.expiresAt)) :
    get_correction sts sid t = (none, dictRemove sts sid) := by
  unfold get_correction
  rw [hget]
  show (if t < v.expiresAt then (some v, sts)
    else (none, dictRemove sts sid)) = (none, dictRemove sts sid)
  exact if_neg hexp

/-- C3.  A correction created at time `T` carries expiry `T + 300`;
`get_correction` re-validates `now < expires_at` on every access, so at any
`T2` with `T + 300 ≤ T2` the lookup returns nothing and deletes the stale
entry (no background sweep is needed).  At the handler level, a user all of
whose session entries are expired gets `None` and an unchanged world from
`handle_correction_response`, so a numeric reply falls through to ordinary
classification. -/
theorem correction_ttl_lazy_expiry :
    (∀ (states : CorrStates) (uid tid item : String) (amt mn mx : ℚ)
        (sh rt rd rc ru : String) (T T2 : ℚ), T + 300 ≤ T2 →
      (get_correction
          (add_correction states uid tid item amt mn mx sh rt rd rc ru T).2
          (add_correction states uid tid item amt mn mx sh rt rd rc ru T).1
          T2).1 = none ∧
      dictGet
        (get_correction
          (add_correction states uid tid item amt mn mx sh rt rd rc ru T).2
          (add_correction states uid tid item amt mn mx sh rt rd rc ru T).1
          T2).2
        (add_correction states uid tid item amt mn mx sh rt rd rc ru T).1 =
          none) ∧
    (∀ (states : CorrStates) (rows : List PriceRow)
        (user_input user_name : String) (now : ℚ) (todayStr : String),
      (∀ p ∈ states, ∀ t : TransCorr, p.2 = CorrEntry.trans t →
        t.user_id = user_name → ¬(now < t.expires_at)) →
      handle_correction_response states rows user_input user_name now
        todayStr = (none, states, rows)) := by
  constructor
  · intro states uid tid item amt mn mx sh rt rd rc ru T T2 hT
    have hins : dictGet
        (add_correction states uid tid item amt mn mx sh rt rd rc ru T).2
        (add_correction states uid tid item amt mn mx sh rt rd rc ru T).1 =
        some (CorrEntry.item
          { user_id := uid, transaction_id := tid, item := item
            amount := amt, min_price := mn, max_price := mx
            sheet_name := sh, rowType := rt, rowDesc := rd, rowCat := rc
            rowUser := ru, timestamp := T, expires_at := T + 300 }) := by
      unfold add_correction
      exact dictGet_corrCleanup _ _ _ T (dictGet_dictInsert _ _ _)
        (by simp [CorrEntry.expiresAt])
    have hstale := get_correction_stale _ _ _ T2 hins
      (by simp only [CorrEntry.expiresAt]; exact not_lt.mpr hT)
    constructor
    · rw [hstale]
    · rw [hstale]
      exact dictGet_dictRemove _ _
  · intro states rows user_input user_name now todayStr h
    apply handle_correction_no_active
    unfold activeSessions
    rw [List.filter_eq_nil_iff]
    intro p hp hpred
    match hp2 : p.2, hpred with
    | CorrEntry.trans t, hpred =>
      have h1 := Bool.and_eq_true_iff.mp hpred
      exact h p hp t hp2 (by simpa using h1.1) (by simpa using h1.2)

/-- Closed witness for C3: a correction added at 1000 is gone at 1300, and
a one-entry expired dict yields `None` and is left unchanged at 1301. -/
theorem correction_ttl_lazy_expiry_witness :
    ((get_correction
        (add_correction [] "User" "EXP-A0" "widget" 25 10 20 "Expenses"
          "expense" "widget" "" "User" 1000).2
        (add_correction [] "User" "EXP-A0" "widget" 25 10 20 "Expenses"
          "expense" "widget" "" "User" 1000).1 1300).1 = none) ∧
    handle_correction_response [("EXP-A0", CorrEntry.trans c2Trans)] [] "5"
        "User" 1301 "2026-10-12" =
      (none, [("EXP-A0", CorrEntry.trans c2Trans)], []) := by
  constructor
  · exact (correction_ttl_lazy_expiry.1 [] "User" "EXP-A0" "widget" 25 10 20
      "Expenses" "expense" "widget" "" "User" 1000 1300 (by norm_num)).1
  · refine correction_ttl_lazy_expiry.2 [("EXP-A0", CorrEntry.trans c2Trans)]
      [] "5" "User" 1301 "2026-10-12" ?_
    intro p hp t hpt hu
    have hpe : p = ("EXP-A0", CorrEntry.trans c2Trans) := by simpa using hp
    rw [hpe] at hpt
    have ht : t = c2Trans := by
      have := hpt
      simpa using this.symm
    rw [ht]
    norm_num [c2Trans]

/-! ## Claim C5: every stored price range keeps `min < max` -/

theorem dictGet_mem {α : Type} (d : List (String × α)) (k : String) (v : α)
    (h : dictGet d k = some v) : ∃ p ∈ d, p.2 = v := by
  unfold dictGet at h
  cases hf : d.find? (fun p => p.1 == k) with
  | none => rw [hf] at h; cases h
  | some p =>
    rw [hf] at h
    exact ⟨p, List.mem_of_find?_eq_some hf, by simpa using h⟩

theorem trainUpsert_mem (T : PriceRow) (item : String) :
    ∀ (rows rows2 : List PriceRow), trainUpsert T item rows = some rows2 →
      ∀ r ∈ rows2, r = T ∨ r ∈ rows := by
  intro rows
  induction rows with
  | nil => intro rows2 h; cases h
  | cons p t ih =>
    intro rows2 h r hr
    unfold trainUpsert at h
    by_cases hm : keyMatches p.item item
    · rw [if_pos hm] at h
      cases h
      rcases List.mem_cons.mp hr with h1 | h1
      · exact Or.inl h1
      · exact Or.inr (List.mem_cons_of_mem _ h1)
    · rw [if_neg (by simpa using hm)] at h
      cases hu : trainUpsert T item t with
      | none => rw [hu] at h; cases h
      | some rs =>
        rw [hu] at h
        have h2 : some (p :: rs) = some rows2 := h
        obtain rfl := Option.some.inj h2
        rcases List.mem_cons.mp hr with h1 | h1
        · exact Or.inr (h1 ▸ List.mem_cons_self _ _)
        · rcases ih rs hu r h1 with h3 | h3
          · exact Or.inl h3
          · exact Or.inr (List.mem_cons_of_mem _ h3)

theorem train_price_inv (rows : List PriceRow) (item : String)
    (mn mx : ℚ) (unit u d : String) (hlt : mn < mx)
    (hrows : ∀ r ∈ rows, r.minP < r.maxP) :
    ∀ r ∈ (train_price rows item mn mx unit u d).2, r.minP < r.maxP := by
  intro r hr
  cases hu : trainUpsert (mkTrained item mn mx unit u d) item rows with
  | none =>
    rw [train_price_snd_none _ _ _ _ _ _ _ hu] at hr
    rcases List.mem_append.mp hr with h1 | h1
    · exact hrows r h1
    · have h2 : r = mkTrained item mn mx unit u d := by simpa using h1
      rw [h2]
      simpa [mkTrained] using hlt
  | some rows2 =>
    rw [train_price_snd_some _ _ _ _ _ _ _ _ hu] at hr
    rcases trainUpsert_mem _ _ rows rows2 hu r hr with h1 | h1
    · rw [h1]
      simpa [mkTrained] using hlt
    · exact hrows r h1

theorem applyChoice_foldl_inv (c : ItemCorr) (tid u d : String)
    (hc : c.min_price < c.max_price) :
    ∀ (ns : List Nat) (acc : List String × List PriceRow),
      (∀ r ∈ acc.2, r.minP < r.maxP) →
      ∀ r ∈ (ns.foldl (applyChoice c tid u d) acc).2, r.minP < r.maxP := by
  intro ns
  induction ns with
  | nil => intro acc h; simpa using h
  | cons n t ih =>
    intro acc h
    rw [List.foldl_cons]
    apply ih
    obtain ⟨rs, rws⟩ := acc
    have h2 : ∀ r ∈ rws, r.minP < r.maxP := h
    unfold applyChoice
    by_cases h1 : (n == 1) = true
    · simpa [h1] using h2
    · by_cases hb2 : (n == 2) = true
      · simpa [h1, hb2] using h2
      · by_cases hb3 : (n == 3) = true
        · simpa [h1, hb2, hb3] using h2
        · by_cases hb4 : (n == 4) = true
          · simp only [h1, hb2, hb3, hb4, Bool.false_eq_true, if_false,
              if_true]
            intro r hr
            have hr2 : r ∈ (train_price rws c.item
                (min c.min_price c.amount) (max c.max_price c.amount) ""
                u d).2 := hr
            exact train_price_inv rws c.item _ _ "" u d
              (lt_of_le_of_lt (min_le_left _ _)
                (lt_of_lt_of_le hc (le_max_left _ _))) h2 r hr2
          · by_cases hb5 : (n == 5) = true
            · simpa [h1, hb2, hb3, hb4, hb5] using h2
            · simpa [h1, hb2, hb3, hb4, hb5] using h2

theorem get_correction_snd_mem (sts : CorrStates) (sid : String) (now : ℚ) :
    ∀ p ∈ (get_correction sts sid now).2, p ∈ sts := by
  unfold get_correction
  cases hd : dictGet sts sid with
  | none => intro p hp; exact hp
  | some st =>
    by_cases ht : now < st.expiresAt
    · intro p hp
      have hp2 : p ∈ (if now < st.expiresAt then (some st, sts)
          else (none, dictRemove sts sid)).2 := hp
      rw [if_pos ht] at hp2
      exact hp2
    · intro p hp
      have hp2 : p ∈ (if now < st.expiresAt then (some st, sts)
          else (none, dictRemove sts sid)).2 := hp
      rw [if_neg ht] at hp2
      unfold dictRemove at hp2
      exact (List.mem_filter.mp hp2).1

theorem get_correction_fst (sts : CorrStates) (sid : String) (now : ℚ)
    (v : CorrEntry) (h : (get_correction sts sid now).1 = some v) :
    dictGet sts sid = some v := by
  unfold get_correction at h
  cases hd : dictGet sts sid with
  | none => rw [hd] at h; cases h
  | some st =>
    rw [hd] at h
    by_cases ht : now < st.expiresAt
    · have h2 : (if now < st.expiresAt then (some st, sts)
          else (none, dictRemove sts sid)).1 = some v := h
      rw [if_pos ht] at h2
      exact h2
    · have h2 : (if now < st.expiresAt then (some st, sts)
          else (none, dictRemove sts sid)).1 = some v := h
      rw [if_neg ht] at h2
      cases h2

theorem correctionStep_preserve (numbers : List Nat) (tid u d : String)
    (now : ℚ) (states0 : CorrStates)
    (hstates : ∀ p ∈ states0, ∀ c : ItemCorr, p.2 = CorrEntry.item c →
      c.min_price < c.max_price)
    (resps : List String) (sts : CorrStates) (rws : List PriceRow)
    (sid : String)
    (h1 : ∀ p ∈ sts, p ∈ states0)
    (h2 : ∀ r ∈ rws, r.minP < r.maxP) :
    (∀ p ∈ (correctionStep numbers tid u d now (resps, sts, rws) sid).2.1,
      p ∈ states0) ∧
    (∀ r ∈ (correctionStep numbers tid u d now (resps, sts, rws) sid).2.2,
      r.minP < r.maxP) := by
  have hsub := get_correction_snd_mem sts sid now
  have hred : correctionStep numbers tid u d now (resps, sts, rws) sid =
      (match get_correction sts sid now with
        | (none, s2) => (resps, s2, rws)
        | (some (CorrEntry.trans _), s2) => (resps, s2, rws)
        | (some (CorrEntry.item c), s2) =>
          ((numbers.foldl (applyChoice c tid u d) (resps, rws)).1, s2,
            (numbers.foldl (applyChoice c tid u d) (resps, rws)).2)) := rfl
  rw [hred]
  rcases hX : get_correction sts sid now with ⟨o, sts2⟩
  have hsub2 : ∀ p ∈ sts2, p ∈ sts := by
    intro p hp
    exact hsub p (by rw [hX]; exact hp)
  cases o with
  | none =>
    exact ⟨fun p hp => h1 p (hsub2 p hp), h2⟩
  | some entry =>
    cases entry with
    | trans t2 =>
      exact ⟨fun p hp => h1 p (hsub2 p hp), h2⟩
    | item c2 =>
      have hd : dictGet sts sid = some (CorrEntry.item c2) :=
        get_correction_fst sts sid now _ (by rw [hX])
      rcases dictGet_mem _ _ _ hd with ⟨p, hps, hp2⟩
      have hc2 : c2.min_price < c2.max_price :=
        hstates p (h1 p hps) c2 hp2
      refine ⟨fun p hp => h1 p (hsub2 p hp), ?_⟩
      intro r hr
      have hr2 : r ∈ (numbers.foldl (applyChoice c2 tid u d)
          (resps, rws)).2 := hr
      exact applyChoice_foldl_inv c2 tid u d hc2 numbers (resps, rws) h2 r
        hr2

theorem correctionStep_foldl_inv (numbers : List Nat) (tid u d : String)
    (now : ℚ) (states0 : CorrStates)
    (hstates : ∀ p ∈ states0, ∀ c : ItemCorr, p.2 = CorrEntry.item c →
      c.min_price < c.max_price) :
    ∀ (sids : List String) (acc : List String × CorrStates × List PriceRow),
      (∀ p ∈ acc.2.1, p ∈ states0) →
      (∀ r ∈ acc.2.2, r.minP < r.maxP) →
      (∀ p ∈ (sids.foldl (correctionStep numbers tid u d now) acc).2.1,
        p ∈ states0) ∧
      (∀ r ∈ (sids.foldl (correctionStep numbers tid u d now) acc).2.2,
        r.minP < r.maxP) := by
  intro sids
  induction sids with
  | nil => intro acc hA hB; exact ⟨hA, hB⟩
  | cons sid rest ih =>
    intro acc hA hB
    rw [List.foldl_cons]
    obtain ⟨resps, sts, rws⟩ := acc
    have hstep := correctionStep_preserve numbers tid u d now states0
      hstates resps sts rws sid hA hB
    exact ih _ hstep.1 hstep.2

theorem ite_snd_snd {α β γ : Type} (c : Prop) [Decidable c]
    (x y : α) (s1 s2 : β) (r : γ) :
    (if c then (x, s1, r) else (y, s2, r)).2.2 = r := by
  by_cases h : c <;> simp [h]

theorem handle_correction_inv (states : CorrStates) (rows : List PriceRow)
    (user_input user_name : String) (now : ℚ) (todayStr : String)
    (hstates : ∀ p ∈ states, ∀ c : ItemCorr, p.2 = CorrEntry.item c →
      c.min_price < c.max_price)
    (hrows : ∀ r ∈ rows, r.minP < r.maxP) :
    ∀ r ∈ (handle_correction_response states rows user_input user_name now
      todayStr).2.2, r.minP < r.maxP := by
  unfold handle_correction_response
  by_cases hn : (parseChoices user_input).isEmpty
  · simp only [hn, if_true]
    exact hrows
  · simp only [hn, Bool.false_eq_true, if_false]
    cases hl : (activeSessions states user_name now).getLast? with
    | none => exact hrows
    | some pr =>
      obtain ⟨tid, entry⟩ := pr
      cases entry with
      | trans t =>
        have hstep := (correctionStep_foldl_inv (parseChoices user_input)
          tid user_name todayStr now states hstates t.state_ids
          ([], states, rows) (fun p hp => hp) hrows).2
        intro r hr
        rw [ite_snd_snd] at hr
        exact hstep r hr
      | item c0 =>
        intro r hr
        rw [ite_snd_snd] at hr
        exact hrows r hr

/-- C5.  Every price-range write path preserves `min < max` for all stored
rows: a `+train` whose parsed prices satisfy `max ≤ min` is rejected with
the validation message and leaves the sheet unchanged; any outcome of the
`+train` branch preserves the invariant; `train_price` itself preserves it
whenever the written pair satisfies `min < max`; and the option-4 widening
path of `handle_correction_response` preserves it provided every pending
item correction carries `min_price < max_price` (the widened pair
`[min(mn,a), max(mx,a)]` then keeps the order strict). -/
theorem price_range_min_lt_max :
    (∀ (rows : List PriceRow) (text user todayStr item : String)
        (mn mx : ℚ) (u : String),
      parse_train_command text =
        { item := some item, minPrice := some mn, maxPrice := some mx
          fourth := u } →
      mx ≤ mn →
      handle_train_branch rows text user todayStr =
        (PyVal.str "❌ Minimum price must be less than maximum price.",
          rows)) ∧
    (∀ (rows : List PriceRow) (text user todayStr : String),
      (∀ r ∈ rows, r.minP < r.maxP) →
      ∀ r ∈ (handle_train_branch rows text user todayStr).2,
        r.minP < r.maxP) ∧
    (∀ (rows : List PriceRow) (item : String) (mn mx : ℚ)
        (unit u d : String), mn < mx →
      (∀ r ∈ rows, r.minP < r.maxP) →
      ∀ r ∈ (train_price rows item mn mx unit u d).2, r.minP < r.maxP) ∧
    (∀ (states : CorrStates) (rows : List PriceRow)
        (user_input user_name : String) (now : ℚ) (todayStr : String),
      (∀ p ∈ states, ∀ c : ItemCorr, p.2 = CorrEntry.item c →
        c.min_price < c.max_price) →
      (∀ r ∈ rows, r.minP < r.maxP) →
      ∀ r ∈ (handle_correction_response states rows user_input user_name
        now todayStr).2.2, r.minP < r.maxP) := by
  refine ⟨?_, ?_, ?_, ?_⟩
  · intro rows text user todayStr item mn mx u hp hle
    unfold handle_train_branch
    rw [hp]
    show (if mx ≤ mn then
        (PyVal.str "❌ Minimum price must be less than maximum price.", rows)
      else if (10000000 : ℚ) < mx then
        (PyVal.str "❌ Price seems unrealistic. Please check the amount.",
          rows)
      else
        (PyVal.str (train_price rows item mn mx u user todayStr).1,
          (train_price rows item mn mx u user todayStr).2)) = _
    rw [if_pos hle]
  · intro rows text user todayStr hrows
    unfold handle_train_branch
    cases hp : parse_train_command text with
    | mk io mno mxo fo =>
      cases io with
      | none => exact hrows
      | some item =>
        cases mno with
        | none => cases mxo <;> exact hrows
        | some mn =>
          cases mxo with
          | none => exact hrows
          | some mx =>
            by_cases hle : mx ≤ mn
            · intro r hr
              have hr2 : r ∈ (if mx ≤ mn then
                  (PyVal.str
                    "❌ Minimum price must be less than maximum price.",
                    rows)
                else if (10000000 : ℚ) < mx then
                  (PyVal.str
                    "❌ Price seems unrealistic. Please check the amount.",
                    rows)
                else
                  (PyVal.str (train_price rows item mn mx fo user
                    todayStr).1,
                    (train_price rows item mn mx fo user todayStr).2)).2 :=
                hr
              rw [if_pos hle] at hr2
              exact hrows r hr2
            · by_cases hbig : (10000000 : ℚ) < mx
              · intro r hr
                have hr2 : r ∈ (if mx ≤ mn then
                    (PyVal.str
                      "❌ Minimum price must be less than maximum price.",
                      rows)
                  else if (10000000 : ℚ) < mx then
                    (PyVal.str
                      "❌ Price seems unrealistic. Please check the amount.",
                      rows)
                  else
                    (PyVal.str (train_price rows item mn mx fo user
                      todayStr).1,
                      (train_price rows item mn mx fo user todayStr).2)).2 :=
                  hr
                rw [if_neg hle, if_pos hbig] at hr2
                exact hrows r hr2
              · intro r hr
                have hr2 : r ∈ (if mx ≤ mn then
                    (PyVal.str
                      "❌ Minimum price must be less than maximum price.",
                      rows)
                  else if (10000000 : ℚ) < mx then
                    (PyVal.str
                      "❌ Price seems unrealistic. Please check the amount.",
                      rows)
                  else
                    (PyVal.str (train_price rows item mn mx fo user
                      todayStr).1,
                      (train_price rows item mn mx fo user todayStr).2)).2 :=
                  hr
                rw [if_neg hle, if_neg hbig] at hr2
                exact train_price_inv rows item mn mx fo user todayStr
                  (not_le.mp hle) hrows r hr2
  · intro rows item mn mx unit u d hlt hrows
    exact train_price_inv rows item mn mx unit u d hlt hrows
  · intro states rows user_input user_name now todayStr hstates hrows
    exact handle_correction_inv states rows user_input user_name now
      todayStr hstates hrows

/-- Closed witness for C5: `+train "widget" 20 10` is rejected and leaves
the trained sheet unchanged, and a valid widening through choice 4 keeps
`min < max` on the one-row sheet. -/
theorem price_range_min_lt_max_witness :
    handle_train_branch [widgetRow] "+train \"widget\" 20 10" "User"
        "2026-10-12" =
      (PyVal.str "❌ Minimum price must be less than maximum price.",
        [widgetRow]) ∧
    ∀ r ∈ (handle_correction_response c2States [widgetRow] "4" "User" 1000
      "2026-10-12").2.2, r.minP < r.maxP := by
  constructor
  · exact price_range_min_lt_max.1 [widgetRow] "+train \"widget\" 20 10"
      "User" "2026-10-12" "widget" 20 10 ""
      (by with_unfolding_all decide) (by norm_num)
  · exact price_range_min_lt_max.2.2.2 c2States [widgetRow] "4" "User" 1000
      "2026-10-12"
      (by
        intro p hp c hc
        have hp2 : p = ("User_1000", CorrEntry.item c2Item) ∨
            p = ("EXP-A0", CorrEntry.trans c2Trans) := by
          simpa [c2States] using hp
        rcases hp2 with h | h
        · rw [h] at hc
          have : c = c2Item := by simpa using hc.symm
          rw [this]
          norm_num [c2Item]
        · rw [h] at hc
          cases hc)
      (by
        intro r hr
        have : r = widgetRow := by simpa using hr
        rw [this]
        norm_num [widgetRow])

/-! ## Claim C10: a nameless order makes the next message client info -/

/-- The order row and order-flow state left behind by `+sale 100 stuff` on
the trained world at time 1000. -/
def c10Order : OrderRow :=
  { orderId := "ORD-A1", dateCreated := "2026-10-12 12:00"
    clientName := "", clientContact := "", services := "stuff"
    amount := 100, status := "Pending", payStatus := "Paid"
    deliveryInfo := "", notes := "Created by User"
    linkedSaleId := "SAL-A0" }

def c10Flow : OrderFlowState :=
  { action := "waiting_for_client_info", order_id := "ORD-A1"
    expires := 1600 }

def c10Env : Env :=
  { sampleEnv with
      orders := [c10Order], orderStates := [("User", c10Flow)] }

/-- C10.  Creating an order without a client name opens a
`waiting_for_client_info` state for the user expiring 600 seconds later and
stores the order with an empty client name; while such a state is pending
and its order row exists, `process_command` hands ANY nonempty next message
of that user to the order flow — the message is parsed as `Name, Number`,
the order and state are updated, and neither correction handling nor
command classification ever sees the text (the corrections dict is
untouched).  Concretely: `+sale 100 stuff` auto-creates order `ORD-A1`
waiting for client info, and the bare numeric follow-up `7` — which would
otherwise be a correction reply or an unknown command — is consumed as the
client name `7`. -/
theorem order_state_consumes_next_message :
    (∀ (e : Env) (amount : ℚ)
        (description user_name linked contact : String)
        (now : ℚ) (dts : String),
      dictGet (record_order e amount description user_name linked ""
          contact now dts).2.orderStates user_name =
        some { action := "waiting_for_client_info"
               order_id := (generate_transaction_id e "ORD").1
               expires := now + 600 } ∧
      (record_order e amount description user_name linked "" contact now
          dts).2.orders =
        e.orders ++
          [{ orderId := (generate_transaction_id e "ORD").1
             dateCreated := dts
             clientName := "", clientContact := contact
             services := description, amount := amount, status := "Pending"
             payStatus := if linked != "" then "Paid" else "Unpaid"
             deliveryInfo := "", notes := "Created by " ++ user_name
             linkedSaleId := linked }]) ∧
    (∀ (e : Env) (clk : Clock) (input user_name : String)
        (st : OrderFlowState),
      input ≠ "" →
      dictGet e.orderStates user_name = some st →
      ¬(clk.now > st.expires) →
      st.action = "waiting_for_client_info" →
      ((e.orders.find? (fun r =>
        pyUpper (pyStrip r.orderId) == pyUpper st.order_id)).isSome =
          true) →
      process_command e clk input user_name =
        (PyVal.str ("✅ **Order " ++ st.order_id ++
            " Updated!**\nClient: " ++
            ((splitNameContact (pyStrip input)).head?).getD "Unknown" ++
            "\nContact: " ++
            (((splitNameContact (pyStrip input)).drop 1).head?).getD "" ++
            "\n\nType pending to see all orders."),
          { e with
              orders := updateFirst (fun r =>
                  pyUpper (pyStrip r.orderId) == pyUpper st.order_id)
                (fun r => { r with
                  clientName :=
                    ((splitNameContact (pyStrip input)).head?).getD
                      "Unknown"
                  clientContact :=
                    (((splitNameContact (pyStrip input)).drop 1).head?).getD
                      "" }) e.orders
              orderStates := dictRemove e.orderStates user_name }) ∧
      (process_command e clk input user_name).2.corrections =
        e.corrections) ∧
    (process_command envTrained sampleClock "+sale 100 stuff"
        "User").2.orderStates = [("User", c10Flow)] ∧
    (process_command (process_command envTrained sampleClock
        "+sale 100 stuff" "User").2 sampleClock "7" "User").1 =
      PyVal.str
        "✅ **Order ORD-A1 Updated!**\nClient: 7\nContact: \n\nType pending to see all orders." ∧
    (process_command (process_command envTrained sampleClock
        "+sale 100 stuff" "User").2 sampleClock "7" "User").2.corrections =
      (process_command envTrained sampleClock "+sale 100 stuff"
        "User").2.corrections := by
  refine ⟨?_, ?_, ?_, ?_, ?_⟩
  · intro e amount description user_name linked contact now dts
    exact ⟨dictGet_dictInsert _ _ _, rfl⟩
  · intro e clk input user_name st hin hst hexp hact hfind
    have hos : handle_order_state e (pyStrip input) user_name clk.now =
        (some ("✅ **Order " ++ st.order_id ++ " Updated!**\nClient: " ++
            ((splitNameContact (pyStrip input)).head?).getD "Unknown" ++
            "\nContact: " ++
            (((splitNameContact (pyStrip input)).drop 1).head?).getD "" ++
            "\n\nType pending to see all orders."),
          { e with
              orders := updateFirst (fun r =>
                  pyUpper (pyStrip r.orderId) == pyUpper st.order_id)
                (fun r => { r with
                  clientName :=
                    ((splitNameContact (pyStrip input)).head?).getD
                      "Unknown"
                  clientContact :=
                    (((splitNameContact (pyStrip input)).drop 1).head?).getD
                      "" }) e.orders
              orderStates := dictRemove e.orderStates user_name }) := by
      unfold handle_order_state
      rw [hst]
      simp [hact, hfind, hexp]
    have hif : (input == "") = false := by simpa using hin
    have hmain : process_command e clk input user_name =
        (PyVal.str ("✅ **Order " ++ st.order_id ++
            " Updated!**\nClient: " ++
            ((splitNameContact (pyStrip input)).head?).getD "Unknown" ++
            "\nContact: " ++
            (((splitNameContact (pyStrip input)).drop 1).head?).getD "" ++
            "\n\nType pending to see all orders."),
          { e with
              orders := updateFirst (fun r =>
                  pyUpper (pyStrip r.orderId) == pyUpper st.order_id)
                (fun r => { r with
                  clientName :=
                    ((splitNameContact (pyStrip input)).head?).getD
                      "Unknown"
                  clientContact :=
                    (((splitNameContact (pyStrip input)).drop 1).head?).getD
                      "" }) e.orders
              orderStates := dictRemove e.orderStates user_name }) := by
      unfold process_command
      simp [hif, hos]
    exact ⟨hmain, by rw [hmain]⟩
  · set_option maxRecDepth 4000 in with_unfolding_all rfl
  · set_option maxRecDepth 4000 in with_unfolding_all rfl
  · set_option maxRecDepth 4000 in with_unfolding_all rfl

/-- Closed witness for C10: on a world holding order `ORD-A1` and a pending
client-info state for the user, the next message `7` is consumed by the
order flow. -/
theorem order_state_consumes_next_message_witness :
    process_command c10Env sampleClock "7" "User" =
      (PyVal.str ("✅ **Order " ++ c10Flow.order_id ++
          " Updated!**\nClient: " ++
          ((splitNameContact (pyStrip "7")).head?).getD "Unknown" ++
          "\nContact: " ++
          (((splitNameContact (pyStrip "7")).drop 1).head?).getD "" ++
          "\n\nType pending to see all orders."),
        { c10Env with
            orders := updateFirst (fun r =>
                pyUpper (pyStrip r.orderId) == pyUpper c10Flow.order_id)
              (fun r => { r with
                clientName :=
                  ((splitNameContact (pyStrip "7")).head?).getD "Unknown"
                clientContact :=
                  (((splitNameContact (pyStrip "7")).drop 1).head?).getD
                    "" }) c10Env.orders
            orderStates := dictRemove c10Env.orderStates "User" }) :=
  (order_state_consumes_next_message.2.1 c10Env sampleClock "7" "User"
    c10Flow (by decide)
    (by set_option maxRecDepth 4000 in with_unfolding_all decide)
    (by set_option maxRecDepth 4000 in with_unfolding_all decide) rfl
    (by set_option maxRecDepth 4000 in with_unfolding_all decide)).1

end AccountBot
